import Mathlib

/-!
Verification of the `yellowmoon` Lua 5.1 bytecode chunk decoder
(`src/undump.rs`).

The decoder is shallowly embedded: a byte buffer is a `List Nat` (each
entry a byte value `< 256`), a cursor is a suffix of the buffer, and each
reader from the Rust source becomes a function
`List Nat → Except DErr (α × List Nat)` returning the parsed value and
the remaining suffix.  All multi-byte integers are decoded little-endian
with `leNat`.  `f64` constants are represented by their IEEE-754 bit
pattern as a `Nat` (the decoder only moves the 8 bytes, it performs no
floating-point arithmetic; `get_f64_le` is a bijection between the 8-byte
pattern and the `f64` value, with `4631107791820423168 = 0x4045000000000000`
being `42.0`).  Errors are the `anyhow` error messages: `DErr.msg s` for
`ensure!(cond, s)` and `bail!`, `DErr.cond s` for a message-less
`ensure!(cond)` (whose anyhow message contains only the stringified
condition `s`).  `DErr.fuel` is an artifact of the fuel-indexed embedding
of the recursive `get_function`; it is proved unreachable for sufficient
fuel.  The source's `try_into()?` conversions (`u64 → usize` for string
lengths, `u32 → usize` for counts) are infallible on the modeled 64-bit
platform, so they introduce no error paths; lengths and counts are plain
`Nat`s here.
-/

namespace Undump

/-- Errors produced by the decoder (anyhow error messages in the source). -/
inductive DErr : Type where
  | msg (s : String)
  | cond (s : String)
  | fuel
deriving DecidableEq

/-- Little-endian interpretation of a byte list (`get_u16_le`-style
accumulation; `leNat (buf.take k)` models the `get_uK_le` readers). -/
def leNat : List Nat → Nat
  | [] => 0
  | b :: rest => b + 256 * leNat rest

/-- The Unicode replacement character `U+FFFD` used by
`String::from_utf8_lossy`. -/
def repl : Char := Char.ofNat 0xFFFD

/-- Character list produced by Rust's `String::from_utf8_lossy` (WHATWG
UTF-8 decoding: every maximal subpart of an ill-formed subsequence is
replaced by one `U+FFFD`, and decoding resumes at the offending byte).
The first argument is structural-recursion fuel; every step consumes at
least one byte, so fuel `≥` list length (as supplied by `utf8LossyChars`)
never runs out and the `0` fallback is unreachable. -/
def utf8LossyAux : Nat → List Nat → List Char
  | 0, _ => []
  | _ + 1, [] => []
  | n + 1, b :: rest =>
    if b < 0x80 then Char.ofNat b :: utf8LossyAux n rest
    else if 0xC2 ≤ b ∧ b ≤ 0xDF then
      match rest with
      | [] => [repl]
      | b1 :: r1 =>
        if 0x80 ≤ b1 ∧ b1 ≤ 0xBF then
          Char.ofNat ((b - 0xC0) * 64 + (b1 - 0x80)) :: utf8LossyAux n r1
        else repl :: utf8LossyAux n rest
    else if 0xE0 ≤ b ∧ b ≤ 0xEF then
      match rest with
      | [] => [repl]
      | b1 :: r1 =>
        if (if b = 0xE0 then 0xA0 ≤ b1 ∧ b1 ≤ 0xBF
            else if b = 0xED then 0x80 ≤ b1 ∧ b1 ≤ 0x9F
            else 0x80 ≤ b1 ∧ b1 ≤ 0xBF) then
          match r1 with
          | [] => [repl]
          | b2 :: r2 =>
            if 0x80 ≤ b2 ∧ b2 ≤ 0xBF then
              Char.ofNat ((b - 0xE0) * 4096 + (b1 - 0x80) * 64 + (b2 - 0x80)) ::
                utf8LossyAux n r2
            else repl :: utf8LossyAux n r1
        else repl :: utf8LossyAux n rest
    else if 0xF0 ≤ b ∧ b ≤ 0xF4 then
      match rest with
      | [] => [repl]
      | b1 :: r1 =>
        if (if b = 0xF0 then 0x90 ≤ b1 ∧ b1 ≤ 0xBF
            else if b = 0xF4 then 0x80 ≤ b1 ∧ b1 ≤ 0x8F
            else 0x80 ≤ b1 ∧ b1 ≤ 0xBF) then
          match r1 with
          | [] => [repl]
          | b2 :: r2 =>
            if 0x80 ≤ b2 ∧ b2 ≤ 0xBF then
              match r2 with
              | [] => [repl]
              | b3 :: r3 =>
                if 0x80 ≤ b3 ∧ b3 ≤ 0xBF then
                  Char.ofNat ((b - 0xF0) * 262144 + (b1 - 0x80) * 4096 +
                      (b2 - 0x80) * 64 + (b3 - 0x80)) :: utf8LossyAux n r3
                else repl :: utf8LossyAux n r2
            else repl :: utf8LossyAux n r1
        else repl :: utf8LossyAux n rest
    else repl :: utf8LossyAux n rest

/-- `String::from_utf8_lossy(bytes).to_string()`. -/
def utf8Lossy (bs : List Nat) : String := String.mk (utf8LossyAux bs.length bs)

/-- `enum Constant` of the source.  `Number` carries the IEEE-754 bit
pattern of the `f64` read little-endian from the stream. -/
inductive Constant : Type where
  | Nil
  | Boolean (b : Bool)
  | Number (bits : Nat)
  | String (s : String)
deriving DecidableEq

/-- `struct LocVar` of the source. -/
structure LocVar : Type where
  varname : String
  startpc : Nat
  endpc : Nat
deriving DecidableEq

/-- `struct Function` of the source (function prototype tree). -/
inductive Function : Type where
  | mk (source : String) (line_defined : Nat) (last_line_defined : Nat)
      (nups : Nat) (num_params : Nat) (is_vararg : Nat) (maxstacksize : Nat)
      (code : List Nat) (constants : List Constant) (funs : List Function)
      (lineinfo : List Nat) (locvars : List LocVar) (upvalues : List String)

/-- Sequencing of parsers: run `P`, on success feed the value and the
remaining bytes to `Q` (the `?` operator on a reader call). -/
def pseq {α β : Type} (P : List Nat → Except DErr (α × List Nat))
    (Q : α → List Nat → Except DErr (β × List Nat)) :
    List Nat → Except DErr (β × List Nat) := fun buf =>
  match P buf with
  | .error e => .error e
  | .ok (a, b1) => Q a b1

/-- Mapping a pure function over a parser's result. -/
def pmap {α β : Type} (P : List Nat → Except DErr (α × List Nat)) (f : α → β) :
    List Nat → Except DErr (β × List Nat) := fun buf =>
  match P buf with
  | .error e => .error e
  | .ok (a, b1) => .ok (f a, b1)

/-- Unconditionally failing parser (a `bail!`). -/
def pfail {α : Type} (e : DErr) : List Nat → Except DErr (α × List Nat) :=
  fun _ => .error e

/-- Guarded fixed-size read: `ensure!(self.remaining() >= k, e)` followed
by consuming exactly `k` bytes. -/
def takeExact (k : Nat) (e : DErr) (buf : List Nat) :
    Except DErr (List Nat × List Nat) :=
  if buf.length < k then .error e else .ok (buf.take k, buf.drop k)

/-- `LuacBuf::get_string` (source lines 37-48): a 64-bit little-endian
length `n`, then `n` bytes of which the first `n - 1` are lossily decoded
and the final terminator byte is discarded; `n = 0` yields the empty
string. -/
def get_string (buf : List Nat) : Except DErr (String × List Nat) :=
  if buf.length < 8 then .error (DErr.msg ("truncated string length"))
  else
    if (buf.drop 8).length < leNat (buf.take 8) then
      .error (DErr.msg ("truncated string contents"))
    else
      .ok (if leNat (buf.take 8) = 0 then ("")
           else utf8Lossy ((buf.drop 8).take (leNat (buf.take 8) - 1)),
        (buf.drop 8).drop (leNat (buf.take 8)))

/-- Payload of one constant after its type tag `t` (source lines 72-84). -/
def constPayload (t : Nat) : List Nat → Except DErr (Constant × List Nat) :=
  if t = 0 then fun buf => .ok (Constant.Nil, buf)
  else if t = 1 then
    pmap (takeExact 1 (DErr.cond ("self.remaining() >= 1")))
      (fun bs => Constant.Boolean (bs.getD 0 0 != 0))
  else if t = 3 then
    pmap (takeExact 8 (DErr.cond ("self.remaining() >= 8")))
      (fun bs => Constant.Number (leNat bs))
  else if t = 4 then pmap get_string Constant.String
  else pfail (DErr.msg (String.append ("invalid constant type ") (toString t)))

/-- One constant: a guarded 1-byte tag, then its payload
(source lines 70-85). -/
def readConstant : List Nat → Except DErr (Constant × List Nat) :=
  pseq (takeExact 1 (DErr.msg ("truncated constants")))
    (fun tagB => constPayload (leNat tagB))

/-- One `LocVar` record: name, then a guarded 8-byte `startpc`/`endpc`
pair (source lines 105-115). -/
def readLocVar : List Nat → Except DErr (LocVar × List Nat) :=
  pseq get_string (fun name =>
    pmap (takeExact 8 (DErr.msg ("truncated debug locvars")))
      (fun bs => LocVar.mk name (leNat (bs.take 4)) (leNat (bs.drop 4))))

/-- `n` repetitions of a parser (a `for _ in 0..n` read loop). -/
def preplicate {α : Type} (P : List Nat → Except DErr (α × List Nat)) :
    Nat → List Nat → Except DErr (List α × List Nat)
  | 0, buf => .ok ([], buf)
  | n + 1, buf =>
    match P buf with
    | .error e => .error e
    | .ok (a, b1) =>
      match preplicate P n b1 with
      | .error e => .error e
      | .ok (as, b2) => .ok (a :: as, b2)

/-- Decoding of `n` unchecked little-endian `u32` reads from a block whose
availability was already guarded (the `code` and `lineinfo` loops). -/
def u32sOf : Nat → List Nat → List Nat
  | 0, _ => []
  | n + 1, bs => leNat (bs.take 4) :: u32sOf n (bs.drop 4)

/-- Body of `LuacBuf::get_function` (source lines 49-138), abstracted over
the reader `G` used for nested prototypes.  Field order, guard order,
guard sizes, and error messages follow the source: `source` string; a
16-byte guard covering `line_defined`, `last_line_defined`, the four
scalar bytes and `codelen`; a `codelen * 4 + 4` guard covering the code
array and `constlen`; the constants loop; a 4-byte guard and `funlen`
with the nested-function loop; the `lineinfo`, `locvars` and `upvalues`
sections with their guards. -/
def get_functionBody (G : List Nat → Except DErr (Function × List Nat)) :
    List Nat → Except DErr (Function × List Nat) :=
  pseq get_string (fun source =>
  pseq (takeExact 16 (DErr.msg ("truncated function header"))) (fun hdr =>
  pseq (takeExact (leNat (hdr.drop 12) * 4 + 4)
      (DErr.msg ("truncated function code"))) (fun codeblk =>
  pseq (preplicate readConstant (leNat (codeblk.drop (leNat (hdr.drop 12) * 4))))
    (fun constants =>
  pseq (takeExact 4 (DErr.msg ("truncated functions"))) (fun funlenB =>
  pseq (preplicate G (leNat funlenB)) (fun funs =>
  pseq (takeExact 4 (DErr.msg ("truncated debug lineinfo size"))) (fun liszB =>
  pseq (takeExact (4 * leNat liszB) (DErr.msg ("truncated debug lineinfo")))
    (fun liblk =>
  pseq (takeExact 4 (DErr.msg ("truncated debug locvars size"))) (fun lvszB =>
  pseq (preplicate readLocVar (leNat lvszB)) (fun locvars =>
  pseq (takeExact 4 (DErr.msg ("truncated debug upvalues size"))) (fun uvszB =>
  pmap (preplicate get_string (leNat uvszB)) (fun upvalues =>
    Function.mk source (leNat (hdr.take 4)) (leNat ((hdr.drop 4).take 4))
      (hdr.getD 8 0) (hdr.getD 9 0) (hdr.getD 10 0) (hdr.getD 11 0)
      (u32sOf (leNat (hdr.drop 12)) codeblk) constants funs
      (u32sOf (leNat liszB) liblk) locvars upvalues))))))))))))

/-- Fuel-indexed `LuacBuf::get_function`; the fuel only bounds the
recursion depth of the embedding and is proved irrelevant once it exceeds
the buffer length. -/
def get_functionF : Nat → List Nat → Except DErr (Function × List Nat)
  | 0, _ => .error DErr.fuel
  | fuel + 1, buf => get_functionBody (get_functionF fuel) buf

/-- `LuacBuf::get_function` on a buffer, with sufficient fuel. -/
def get_function (buf : List Nat) : Except DErr (Function × List Nat) :=
  get_functionF (buf.length + 1) buf

/-- The nine fixed header checks of `undump` (source lines 144-153),
consuming the 12 header bytes. -/
def checkHeader (data : List Nat) : Except DErr (List Nat) :=
  if data.length < 12 then .error (DErr.msg ("truncated header"))
  else if data.take 4 ≠ [27, 76, 117, 97] then .error (DErr.msg ("bad signature"))
  else if data.getD 4 0 ≠ 81 then .error (DErr.msg ("bad luac version"))
  else if data.getD 5 0 ≠ 0 then .error (DErr.msg ("bad luac format"))
  else if data.getD 6 0 ≠ 1 then .error (DErr.msg ("bad endianness"))
  else if data.getD 7 0 ≠ 4 then .error (DErr.msg ("bad sizeof(int)"))
  else if data.getD 8 0 ≠ 8 then .error (DErr.msg ("bad sizeof(size_t)"))
  else if data.getD 9 0 ≠ 4 then .error (DErr.msg ("bad sizeof(Instruction)"))
  else if data.getD 10 0 ≠ 8 then .error (DErr.msg ("bad sizeof(lua_Number)"))
  else if data.getD 11 0 ≠ 0 then
    .error (DErr.msg ("lua_Number must be floating point"))
  else .ok (data.drop 12)

/-- The `extraneous bytes ({})` trailing-data error of `undump`. -/
def extraneousMsg (n : Nat) : DErr :=
  DErr.msg (String.append ("extraneous bytes (") (String.append (toString n) (")")))

/-- `undump` (source lines 142-157): header checks, one prototype read,
and the zero-bytes-remaining check. -/
def undump (data : List Nat) : Except DErr Function :=
  match checkHeader data with
  | .error e => .error e
  | .ok p =>
    match get_function p with
    | .error e => .error e
    | .ok (f, rest) =>
      if rest.isEmpty then .ok f else .error (extraneousMsg rest.length)

/-- The reference chunk of the source's test (the byte-string literal
`return42hello`, 121 bytes). -/
def refChunk : List Nat :=
  [27, 76, 117, 97, 81, 0, 1, 4, 8, 4, 8, 0, 9, 0, 0, 0,
   0, 0, 0, 0, 64, 119, 97, 116, 46, 108, 117, 97, 0, 0, 0, 0,
   0, 0, 0, 0, 0, 0, 0, 2, 2, 4, 0, 0, 0, 1, 0, 0,
   0, 65, 64, 0, 0, 30, 0, 128, 1, 30, 0, 128, 0, 2, 0, 0,
   0, 3, 0, 0, 0, 0, 0, 0, 69, 64, 4, 6, 0, 0, 0, 0,
   0, 0, 0, 104, 101, 108, 108, 111, 0, 0, 0, 0, 0, 4, 0, 0,
   0, 1, 0, 0, 0, 1, 0, 0, 0, 1, 0, 0, 0, 1, 0, 0,
   0, 0, 0, 0, 0, 0, 0, 0, 0]

/-- The expected decode of `refChunk` (the `Function` literal of the
source's test; `4631107791820423168 = 0x4045000000000000` is the bit
pattern of `42.0`). -/
def refFunction : Function :=
  Function.mk ("@wat.lua") 0 0 0 0 2 2 [1, 16449, 25165854, 8388638]
    [Constant.Number 4631107791820423168, Constant.String ("hello")]
    [] [1, 1, 1, 1] [] []

/-- `refChunk` with the type tag of its first constant (byte 65, tag `3`
for `Number`) replaced by the unrecognized tag `2`. -/
def refChunkTag2 : List Nat := refChunk.set 65 2

/-- The nine fixed-header field checks of `undump` in stream order, as a
decidable predicate: field 0 is the 4-byte signature, fields 1-8 the
single header bytes at offsets 4-11 with their required values. -/
def headerFieldOk : Nat → List Nat → Bool
  | 0, data => data.take 4 == [27, 76, 117, 97]
  | 1, data => data.getD 4 0 == 81
  | 2, data => data.getD 5 0 == 0
  | 3, data => data.getD 6 0 == 1
  | 4, data => data.getD 7 0 == 4
  | 5, data => data.getD 8 0 == 8
  | 6, data => data.getD 9 0 == 4
  | 7, data => data.getD 10 0 == 8
  | 8, data => data.getD 11 0 == 0
  | _ + 9, _ => true

/-- The error message of `undump` for each of the nine header fields
(indices above 8 are unused filler). -/
def headerFieldErr : Nat → DErr
  | 0 => DErr.msg ("bad signature")
  | 1 => DErr.msg ("bad luac version")
  | 2 => DErr.msg ("bad luac format")
  | 3 => DErr.msg ("bad endianness")
  | 4 => DErr.msg ("bad sizeof(int)")
  | 5 => DErr.msg ("bad sizeof(size_t)")
  | 6 => DErr.msg ("bad sizeof(Instruction)")
  | 7 => DErr.msg ("bad sizeof(lua_Number)")
  | 8 => DErr.msg ("lua_Number must be floating point")
  | _ + 9 => DErr.msg ("")

/-- Modelled from the spec's words: a truncation error message
"identifies the field that was truncated" when it is an explicit
`truncated <field>` message, as opposed to the bare stringified condition
that a message-less `ensure!` produces. -/
def isFieldNamedTrunc : DErr → Bool
  | DErr.msg s =>
    List.isPrefixOf ((("truncated").toList).map Char.toNat) ((s.toList).map Char.toNat)
  | _ => false

/-- A valid header followed by a minimal prototype (empty source, all-zero
fixed block, `codelen = 0`, `constlen = 1`) whose single constant is a
Boolean tag `1` with its 1-byte payload missing. -/
def cexBool : List Nat :=
  [27, 76, 117, 97, 81, 0, 1, 4, 8, 4, 8, 0] ++ List.replicate 24 0 ++ [1, 0, 0, 0, 1]

/-- As `cexBool`, but the constant is a Number tag `3` with its 8-byte
payload missing. -/
def cexNum : List Nat :=
  [27, 76, 117, 97, 81, 0, 1, 4, 8, 4, 8, 0] ++ List.replicate 24 0 ++ [1, 0, 0, 0, 3]

/-- One `Vec::with_capacity` call of `get_function`: which sequence it
builds, the untrusted count it is sized by, and how many input bytes
remained at the moment of the call. -/
structure AllocEvent : Type where
  field : String
  cap : Nat
  remaining : Nat
deriving DecidableEq

/-- Allocation events of a `for _ in 0..n` loop of nested-function reads:
each iteration's events, stopping after the first failing element. -/
def preplicateAllocs (G : List Nat → Except DErr (Function × List Nat))
    (GA : List Nat → List AllocEvent) : Nat → List Nat → List AllocEvent
  | 0, _ => []
  | n + 1, buf =>
    GA buf ++
      (match G buf with
       | .error _ => []
       | .ok (_, b1) => preplicateAllocs G GA n b1)

/-- The `Vec::with_capacity` events of one `get_function` body, in
execution order, mirroring `get_functionBody`'s control flow: an event is
recorded exactly when the source reaches the corresponding
`Vec::with_capacity(count)` call, with the bytes remaining at that
moment.  `code` and `lineinfo` allocations happen after their bulk
availability guards; `constants`, `funs`, `locvars` and `upvalues`
allocations happen right after their count is read. -/
def get_functionBodyAllocs (G : List Nat → Except DErr (Function × List Nat))
    (GA : List Nat → List AllocEvent) (buf : List Nat) : List AllocEvent :=
  match get_string buf with
  | .error _ => []
  | .ok (_, b1) =>
    match takeExact 16 (DErr.msg ("truncated function header")) b1 with
    | .error _ => []
    | .ok (hdr, b2) =>
      match takeExact (leNat (hdr.drop 12) * 4 + 4)
          (DErr.msg ("truncated function code")) b2 with
      | .error _ => []
      | .ok (codeblk, b3) =>
        AllocEvent.mk ("code") (leNat (hdr.drop 12)) b2.length ::
        AllocEvent.mk ("constants") (leNat (codeblk.drop (leNat (hdr.drop 12) * 4)))
          b3.length ::
        (match preplicate readConstant
            (leNat (codeblk.drop (leNat (hdr.drop 12) * 4))) b3 with
         | .error _ => []
         | .ok (_, b4) =>
           match takeExact 4 (DErr.msg ("truncated functions")) b4 with
           | .error _ => []
           | .ok (funlenB, b5) =>
             AllocEvent.mk ("funs") (leNat funlenB) b5.length ::
             (preplicateAllocs G GA (leNat funlenB) b5 ++
              (match preplicate G (leNat funlenB) b5 with
               | .error _ => []
               | .ok (_, b6) =>
                 match takeExact 4 (DErr.msg ("truncated debug lineinfo size")) b6 with
                 | .error _ => []
                 | .ok (liszB, b7) =>
                   match takeExact (4 * leNat liszB)
                       (DErr.msg ("truncated debug lineinfo")) b7 with
                   | .error _ => []
                   | .ok (_, b8) =>
                     AllocEvent.mk ("lineinfo") (leNat liszB) b7.length ::
                     (match takeExact 4
                         (DErr.msg ("truncated debug locvars size")) b8 with
                      | .error _ => []
                      | .ok (lvszB, b9) =>
                        AllocEvent.mk ("locvars") (leNat lvszB) b9.length ::
                        (match preplicate readLocVar (leNat lvszB) b9 with
                         | .error _ => []
                         | .ok (_, b10) =>
                           match takeExact 4
                               (DErr.msg ("truncated debug upvalues size")) b10 with
                           | .error _ => []
                           | .ok (uvszB, b11) =>
                             [AllocEvent.mk ("upvalues") (leNat uvszB) b11.length])))))

/-- Fuel-indexed allocation trace of `get_function`. -/
def get_functionAllocs : Nat → List Nat → List AllocEvent
  | 0, _ => []
  | fuel + 1, buf =>
    get_functionBodyAllocs (get_functionF fuel) (get_functionAllocs fuel) buf

/-- Allocation trace of a whole `undump` run. -/
def undumpAllocs (data : List Nat) : List AllocEvent :=
  match checkHeader data with
  | .error _ => []
  | .ok p => get_functionAllocs (p.length + 1) p

/-- A valid header and minimal prototype prefix whose constant count is
`0xFFFFFFFF` while zero bytes remain. -/
def cexConstAlloc : List Nat :=
  [27, 76, 117, 97, 81, 0, 1, 4, 8, 4, 8, 0] ++ List.replicate 24 0 ++
    [255, 255, 255, 255]

/-- A valid header and minimal prototype prefix whose nested-function
count is `0xFFFFFFFF` while zero bytes remain. -/
def cexFunsAlloc : List Nat :=
  [27, 76, 117, 97, 81, 0, 1, 4, 8, 4, 8, 0] ++ List.replicate 28 0 ++
    [255, 255, 255, 255]

/-- A valid header and minimal prototype prefix whose locvars count is
`0xFFFFFFFF` while zero bytes remain. -/
def cexLocvAlloc : List Nat :=
  [27, 76, 117, 97, 81, 0, 1, 4, 8, 4, 8, 0] ++ List.replicate 36 0 ++
    [255, 255, 255, 255]

/-- A valid header and minimal prototype prefix whose upvalues count is
`0xFFFFFFFF` while zero bytes remain. -/
def cexUpvAlloc : List Nat :=
  [27, 76, 117, 97, 81, 0, 1, 4, 8, 4, 8, 0] ++ List.replicate 40 0 ++
    [255, 255, 255, 255]

/-- The complete list of insufficient-remaining-bytes errors the decoder
can produce: the named `ensure!` truncation guards together with the two
message-less guards of the Boolean and Number constant payloads. -/
def TruncErrs : List DErr :=
  [DErr.msg ("truncated header"), DErr.msg ("truncated string length"),
   DErr.msg ("truncated string contents"), DErr.msg ("truncated function header"),
   DErr.msg ("truncated function code"), DErr.msg ("truncated constants"),
   DErr.cond ("self.remaining() >= 1"), DErr.cond ("self.remaining() >= 8"),
   DErr.msg ("truncated functions"), DErr.msg ("truncated debug lineinfo size"),
   DErr.msg ("truncated debug lineinfo"), DErr.msg ("truncated debug locvars size"),
   DErr.msg ("truncated debug locvars"), DErr.msg ("truncated debug upvalues size")]

/-- Correctness bundle for a reader `P`: on success the remaining bytes
are a suffix of the input (`consumes`); a successful parse only depends
on the bytes it consumed (`frame`); and cutting the input anywhere inside
the consumed prefix yields an insufficient-bytes error (`cut`). -/
structure PSpec {α : Type} (P : List Nat → Except DErr (α × List Nat)) : Prop where
  consumes : ∀ buf v rest, P buf = .ok (v, rest) → ∃ pre, buf = pre ++ rest
  frame : ∀ pre rest v, P (pre ++ rest) = .ok (v, rest) →
    ∀ rest2, P (pre ++ rest2) = .ok (v, rest2)
  cut : ∀ pre rest v, P (pre ++ rest) = .ok (v, rest) →
    ∀ j, j < pre.length → ∃ e, P (pre.take j) = .error e ∧ e ∈ TruncErrs

/-- Result agreement between two readers wherever the first does not run
out of fuel. -/
def RM {α : Type} (P P' : List Nat → Except DErr (α × List Nat)) : Prop :=
  ∀ buf r, P buf = r → r ≠ .error DErr.fuel → P' buf = r

theorem takeExact_of_le {k : Nat} {e : DErr} {buf : List Nat} (h : k ≤ buf.length) :
    takeExact k e buf = .ok (buf.take k, buf.drop k) := by
  simp [takeExact, Nat.not_lt.mpr h]

theorem takeExact_of_lt {k : Nat} {e : DErr} {buf : List Nat} (h : buf.length < k) :
    takeExact k e buf = .error e := by
  simp [takeExact, h]

theorem takeExact_ok {k : Nat} {e : DErr} {buf a r : List Nat}
    (h : takeExact k e buf = .ok (a, r)) :
    k ≤ buf.length ∧ a = buf.take k ∧ r = buf.drop k := by
  by_cases hk : buf.length < k
  · simp [takeExact, hk] at h
  · rw [takeExact_of_le (Nat.not_lt.mp hk)] at h
    have := Prod.mk.injEq a r (buf.take k) (buf.drop k)
    simp only [Except.ok.injEq] at h
    exact ⟨Nat.not_lt.mp hk, (Prod.mk.injEq _ _ _ _ ▸ h.symm).1, (Prod.mk.injEq _ _ _ _ ▸ h.symm).2⟩

theorem get_string_short {buf : List Nat} (h : buf.length < 8) :
    get_string buf = .error (DErr.msg ("truncated string length")) := by
  simp [get_string, h]

theorem get_string_noContents {buf : List Nat} (h8 : 8 ≤ buf.length)
    (h : buf.length - 8 < leNat (buf.take 8)) :
    get_string buf = .error (DErr.msg ("truncated string contents")) := by
  unfold get_string
  rw [if_neg (Nat.not_lt.mpr h8), if_pos]
  rw [List.length_drop]
  exact h

theorem get_string_ok_eq {buf : List Nat} (h8 : 8 ≤ buf.length)
    (h : leNat (buf.take 8) ≤ buf.length - 8) :
    get_string buf = .ok
      (if leNat (buf.take 8) = 0 then ("")
       else utf8Lossy ((buf.drop 8).take (leNat (buf.take 8) - 1)),
       buf.drop (8 + leNat (buf.take 8))) := by
  unfold get_string
  rw [if_neg (Nat.not_lt.mpr h8), if_neg, List.drop_drop]
  rw [List.length_drop]
  omega

theorem get_string_ok {buf : List Nat} {s : String} {r : List Nat}
    (h : get_string buf = .ok (s, r)) :
    8 ≤ buf.length ∧ leNat (buf.take 8) ≤ buf.length - 8 ∧
      s = (if leNat (buf.take 8) = 0 then ("")
           else utf8Lossy ((buf.drop 8).take (leNat (buf.take 8) - 1))) ∧
      r = buf.drop (8 + leNat (buf.take 8)) := by
  by_cases h8 : buf.length < 8
  · rw [get_string_short h8] at h
    exact absurd h (by simp)
  · by_cases hn : buf.length - 8 < leNat (buf.take 8)
    · rw [get_string_noContents (Nat.not_lt.mp h8) hn] at h
      exact absurd h (by simp)
    · rw [get_string_ok_eq (Nat.not_lt.mp h8) (Nat.not_lt.mp hn)] at h
      simp only [Except.ok.injEq, Prod.mk.injEq] at h
      exact ⟨Nat.not_lt.mp h8, Nat.not_lt.mp hn, h.1.symm, h.2.symm⟩

theorem pseq_of_ok {α β : Type} {P} {Q : α → List Nat → Except DErr (β × List Nat)}
    {buf b1 : List Nat} {a : α} (h : P buf = .ok (a, b1)) :
    pseq P Q buf = Q a b1 := by
  simp [pseq, h]

theorem pseq_of_err {α β : Type} {P} {Q : α → List Nat → Except DErr (β × List Nat)}
    {buf : List Nat} {e : DErr} (h : P buf = .error e) :
    pseq P Q buf = .error e := by
  simp [pseq, h]

theorem pseq_ok {α β : Type} {P} {Q : α → List Nat → Except DErr (β × List Nat)}
    {buf : List Nat} {r : β × List Nat} (h : pseq P Q buf = .ok r) :
    ∃ a b1, P buf = .ok (a, b1) ∧ Q a b1 = .ok r := by
  cases hp : P buf with
  | error e =>
    rw [pseq_of_err hp] at h
    exact absurd h (by simp)
  | ok p =>
    obtain ⟨a, b1⟩ := p
    rw [pseq_of_ok hp] at h
    exact ⟨a, b1, rfl, h⟩

theorem pseq_err {α β : Type} {P} {Q : α → List Nat → Except DErr (β × List Nat)}
    {buf : List Nat} {e : DErr} (h : pseq P Q buf = .error e) :
    P buf = .error e ∨ ∃ a b1, P buf = .ok (a, b1) ∧ Q a b1 = .error e := by
  cases hp : P buf with
  | error e2 =>
    rw [pseq_of_err hp] at h
    simp only [Except.error.injEq] at h
    exact Or.inl (by rw [h])
  | ok p =>
    obtain ⟨a, b1⟩ := p
    rw [pseq_of_ok hp] at h
    exact Or.inr ⟨a, b1, rfl, h⟩

theorem pmap_of_ok {α β : Type} {P} {f : α → β} {buf b1 : List Nat} {a : α}
    (h : P buf = .ok (a, b1)) : pmap P f buf = .ok (f a, b1) := by
  simp [pmap, h]

theorem pmap_of_err {α β : Type} {P} {f : α → β} {buf : List Nat} {e : DErr}
    (h : P buf = .error e) : pmap P f buf = .error e := by
  simp [pmap, h]

theorem pmap_ok {α β : Type} {P} {f : α → β} {buf r : List Nat} {v : β}
    (h : pmap P f buf = .ok (v, r)) : ∃ a, P buf = .ok (a, r) ∧ v = f a := by
  cases hp : P buf with
  | error e =>
    rw [pmap_of_err hp] at h
    exact absurd h (by simp)
  | ok p =>
    obtain ⟨a, b1⟩ := p
    rw [pmap_of_ok hp] at h
    simp only [Except.ok.injEq, Prod.mk.injEq] at h
    exact ⟨a, by rw [h.2], h.1.symm⟩

theorem pmap_err {α β : Type} {P} {f : α → β} {buf : List Nat} {e : DErr}
    (h : pmap P f buf = .error e) : P buf = .error e := by
  cases hp : P buf with
  | error e2 =>
    rw [pmap_of_err hp] at h
    simp only [Except.error.injEq] at h
    rw [h]
  | ok p =>
    obtain ⟨a, b1⟩ := p
    rw [pmap_of_ok hp] at h
    exact absurd h (by simp)

theorem preplicate_succ {α : Type} {P : List Nat → Except DErr (α × List Nat)}
    {n : Nat} :
    preplicate P (n + 1) = pseq P (fun a => pmap (preplicate P n) (fun as => a :: as)) := by
  funext buf
  have hdef : preplicate P (n + 1) buf =
      (match P buf with
       | .error e => .error e
       | .ok (a, b1) =>
         match preplicate P n b1 with
         | .error e => .error e
         | .ok (as, b2) => .ok (a :: as, b2)) := rfl
  rw [hdef]
  cases hp : P buf with
  | error e => rw [pseq_of_err hp]
  | ok p =>
    obtain ⟨a, b1⟩ := p
    rw [pseq_of_ok hp]
    cases hq : preplicate P n b1 with
    | error e =>
      rw [pmap_of_err hq]
      simp only [hq]
    | ok q =>
      obtain ⟨as, b2⟩ := q
      rw [pmap_of_ok hq]
      simp only [hq]

theorem pspec_pureP {α : Type} (c : α) : PSpec (fun buf => .ok (c, buf)) := by
  constructor
  · intro buf v rest h
    simp only [Except.ok.injEq, Prod.mk.injEq] at h
    exact ⟨[], by simp [h.2]⟩
  · intro pre rest v h rest2
    simp only [Except.ok.injEq, Prod.mk.injEq] at h
    have hpre : pre = [] := by
      have := congrArg List.length h.2
      simp at this
      exact this
    simp [h.1, hpre]
  · intro pre rest v h j hj
    simp only [Except.ok.injEq, Prod.mk.injEq] at h
    have hpre : pre = [] := by
      have := congrArg List.length h.2
      simp at this
      exact this
    rw [hpre] at hj
    exact absurd hj (by simp)

theorem pspec_pfail {α : Type} (e : DErr) : PSpec (pfail (α := α) e) := by
  constructor
  · intro buf v rest h; exact absurd h (by simp [pfail])
  · intro pre rest v h; exact absurd h (by simp [pfail])
  · intro pre rest v h; exact absurd h (by simp [pfail])

theorem pspec_takeExact {k : Nat} {e : DErr} (hmem : e ∈ TruncErrs) :
    PSpec (takeExact k e) := by
  constructor
  · intro buf v rest h
    obtain ⟨hk, hv, hr⟩ := takeExact_ok h
    exact ⟨buf.take k, by rw [hr, List.take_append_drop]⟩
  · intro pre rest v h rest2
    obtain ⟨hk, hv, hr⟩ := takeExact_ok h
    rw [List.length_append] at hk
    have hlen : pre.length = k := by
      have h1 := congrArg List.length hr
      rw [List.length_drop, List.length_append] at h1
      omega
    have hle : k ≤ (pre ++ rest2).length := by
      rw [List.length_append]; omega
    rw [takeExact_of_le hle]
    have htk : (pre ++ rest2).take k = pre := by
      rw [← hlen, List.take_left]
    have hdk : (pre ++ rest2).drop k = rest2 := by
      rw [← hlen, List.drop_left]
    have htk' : (pre ++ rest).take k = pre := by
      rw [← hlen, List.take_left]
    rw [htk, hdk, hv, htk']
  · intro pre rest v h j hj
    obtain ⟨hk, hv, hr⟩ := takeExact_ok h
    rw [List.length_append] at hk
    have hlen : pre.length = k := by
      have h1 := congrArg List.length hr
      rw [List.length_drop, List.length_append] at h1
      omega
    refine ⟨e, ?_, hmem⟩
    apply takeExact_of_lt
    rw [List.length_take]
    omega

theorem pspec_get_string : PSpec get_string := by
  constructor
  · intro buf v rest h
    obtain ⟨h8, hn, hs, hr⟩ := get_string_ok h
    exact ⟨buf.take (8 + leNat (buf.take 8)), by rw [hr, List.take_append_drop]⟩
  · intro pre rest v h rest2
    obtain ⟨h8, hn, hs, hr⟩ := get_string_ok h
    have hL : (pre ++ rest).length = pre.length + rest.length := List.length_append _ _
    have hlen : pre.length = 8 + leNat ((pre ++ rest).take 8) := by
      have := congrArg List.length hr
      simp [List.length_drop] at this
      omega
    have htk8 : (pre ++ rest2).take 8 = pre.take 8 := by
      rw [List.take_append_of_le_length (by omega)]
    have htk8' : (pre ++ rest).take 8 = pre.take 8 := by
      rw [List.take_append_of_le_length (by omega)]
    rw [htk8'] at hlen hn hs
    have h8' : 8 ≤ (pre ++ rest2).length := by simp [List.length_append]; omega
    have hn' : leNat ((pre ++ rest2).take 8) ≤ (pre ++ rest2).length - 8 := by
      rw [htk8]
      simp [List.length_append]
      omega
    rw [get_string_ok_eq h8' hn', htk8]
    have hdrop : (pre ++ rest2).drop (8 + leNat (pre.take 8)) = rest2 := by
      rw [← hlen, List.drop_left]
    have hdrop8 : (pre ++ rest2).drop 8 = pre.drop 8 ++ rest2 :=
      List.drop_append_of_le_length (by omega)
    have hdrop8' : (pre ++ rest).drop 8 = pre.drop 8 ++ rest :=
      List.drop_append_of_le_length (by omega)
    rw [hdrop]
    have hval : (if leNat (pre.take 8) = 0 then ("")
        else utf8Lossy (((pre ++ rest2).drop 8).take (leNat (pre.take 8) - 1))) = v := by
      rw [hs, hdrop8', hdrop8]
      by_cases h0 : leNat (pre.take 8) = 0
      · simp [h0]
      · have hlen8 : leNat (pre.take 8) - 1 ≤ (pre.drop 8).length := by
          rw [List.length_drop]; omega
        rw [if_neg h0, if_neg h0,
          List.take_append_of_le_length hlen8, List.take_append_of_le_length hlen8]
    rw [hval]
  · intro pre rest v h j hj
    obtain ⟨h8, hn, hs, hr⟩ := get_string_ok h
    have hL : (pre ++ rest).length = pre.length + rest.length := List.length_append _ _
    have hlen : pre.length = 8 + leNat ((pre ++ rest).take 8) := by
      have := congrArg List.length hr
      simp [List.length_drop] at this
      omega
    have htk8' : (pre ++ rest).take 8 = pre.take 8 := by
      rw [List.take_append_of_le_length (by omega)]
    rw [htk8'] at hlen
    by_cases hj8 : j < 8
    · refine ⟨DErr.msg ("truncated string length"), ?_, by simp [TruncErrs]⟩
      apply get_string_short
      rw [List.length_take]
      omega
    · refine ⟨DErr.msg ("truncated string contents"), ?_, by simp [TruncErrs]⟩
      have hjlen : (pre.take j).length = j := by
        rw [List.length_take]; omega
      apply get_string_noContents (by omega)
      rw [List.take_take, Nat.min_def, if_pos (by omega : 8 ≤ j), hjlen]
      omega

theorem pspec_pmap {α β : Type} {P : List Nat → Except DErr (α × List Nat)}
    (hP : PSpec P) (f : α → β) : PSpec (pmap P f) := by
  constructor
  · intro buf v rest h
    obtain ⟨a, hPa, hv⟩ := pmap_ok h
    exact hP.consumes _ _ _ hPa
  · intro pre rest v h rest2
    obtain ⟨a, hPa, hv⟩ := pmap_ok h
    rw [pmap_of_ok (hP.frame pre rest a hPa rest2), hv]
  · intro pre rest v h j hj
    obtain ⟨a, hPa, hv⟩ := pmap_ok h
    obtain ⟨e, he, hmem⟩ := hP.cut pre rest a hPa j hj
    exact ⟨e, by rw [pmap_of_err he], hmem⟩

theorem pspec_pseq {α β : Type} {P : List Nat → Except DErr (α × List Nat)}
    {Q : α → List Nat → Except DErr (β × List Nat)}
    (hP : PSpec P) (hQ : ∀ a, PSpec (Q a)) : PSpec (pseq P Q) := by
  constructor
  · intro buf v rest h
    obtain ⟨a, mid, hPa, hQa⟩ := pseq_ok h
    obtain ⟨pre0, hb⟩ := hP.consumes _ _ _ hPa
    obtain ⟨pre1, hm⟩ := (hQ a).consumes _ _ _ hQa
    exact ⟨pre0 ++ pre1, by rw [hb, hm, List.append_assoc]⟩
  · intro pre rest v h rest2
    obtain ⟨a, mid, hPa, hQa⟩ := pseq_ok h
    obtain ⟨pre1, hm⟩ := (hQ a).consumes _ _ _ hQa
    subst hm
    obtain ⟨pre0, hb⟩ := hP.consumes _ _ _ hPa
    have hpre : pre = pre0 ++ pre1 :=
      List.append_cancel_right (by rw [hb, List.append_assoc])
    subst hpre
    rw [List.append_assoc] at hPa
    have hPfr := hP.frame pre0 (pre1 ++ rest) a hPa (pre1 ++ rest2)
    have hQfr := (hQ a).frame pre1 rest v hQa rest2
    rw [List.append_assoc, pseq_of_ok hPfr]
    exact hQfr
  · intro pre rest v h j hj
    obtain ⟨a, mid, hPa, hQa⟩ := pseq_ok h
    obtain ⟨pre1, hm⟩ := (hQ a).consumes _ _ _ hQa
    subst hm
    obtain ⟨pre0, hb⟩ := hP.consumes _ _ _ hPa
    have hpre : pre = pre0 ++ pre1 :=
      List.append_cancel_right (by rw [hb, List.append_assoc])
    subst hpre
    rw [List.append_assoc] at hPa
    rcases Nat.lt_or_ge j pre0.length with hj0 | hj0
    · obtain ⟨e, he, hmem⟩ := hP.cut pre0 (pre1 ++ rest) a hPa j hj0
      refine ⟨e, ?_, hmem⟩
      rw [List.take_append_of_le_length (Nat.le_of_lt hj0), pseq_of_err he]
    · have hj1 : j - pre0.length < pre1.length := by
        rw [List.length_append] at hj
        omega
      have hPfr := hP.frame pre0 (pre1 ++ rest) a hPa (pre1.take (j - pre0.length))
      obtain ⟨e, he, hmem⟩ := (hQ a).cut pre1 rest v hQa (j - pre0.length) hj1
      refine ⟨e, ?_, hmem⟩
      rw [List.take_append_eq_append_take, List.take_of_length_le hj0,
        pseq_of_ok hPfr]
      exact he

theorem pspec_preplicate {α : Type} {P : List Nat → Except DErr (α × List Nat)}
    (hP : PSpec P) : ∀ n, PSpec (preplicate P n) := by
  intro n
  induction n with
  | zero =>
    have h0 : preplicate P 0 = fun buf => .ok (([] : List α), buf) := rfl
    rw [h0]
    exact pspec_pureP []
  | succ n ih =>
    rw [preplicate_succ]
    exact pspec_pseq hP (fun a => pspec_pmap ih (fun as => a :: as))

theorem pspec_constPayload (t : Nat) : PSpec (constPayload t) := by
  by_cases h0 : t = 0
  · subst h0
    have h : constPayload 0 = fun buf => .ok (Constant.Nil, buf) := rfl
    rw [h]
    exact pspec_pureP Constant.Nil
  by_cases h1 : t = 1
  · subst h1
    have h : constPayload 1 = pmap (takeExact 1 (DErr.cond ("self.remaining() >= 1")))
        (fun bs => Constant.Boolean (bs.getD 0 0 != 0)) := rfl
    rw [h]
    exact pspec_pmap (pspec_takeExact (by simp [TruncErrs])) _
  by_cases h3 : t = 3
  · subst h3
    have h : constPayload 3 = pmap (takeExact 8 (DErr.cond ("self.remaining() >= 8")))
        (fun bs => Constant.Number (leNat bs)) := rfl
    rw [h]
    exact pspec_pmap (pspec_takeExact (by simp [TruncErrs])) _
  by_cases h4 : t = 4
  · subst h4
    have h : constPayload 4 = pmap get_string Constant.String := rfl
    rw [h]
    exact pspec_pmap pspec_get_string _
  · have h : constPayload t =
        pfail (DErr.msg (String.append ("invalid constant type ") (toString t))) := by
      simp only [constPayload, if_neg h0, if_neg h1, if_neg h3, if_neg h4]
    rw [h]
    exact pspec_pfail _

theorem pspec_readConstant : PSpec readConstant :=
  pspec_pseq (pspec_takeExact (by simp [TruncErrs]))
    (fun tagB => pspec_constPayload (leNat tagB))

theorem pspec_readLocVar : PSpec readLocVar :=
  pspec_pseq pspec_get_string (fun name =>
    pspec_pmap (pspec_takeExact (by simp [TruncErrs])) _)

theorem pspec_get_functionBody {G : List Nat → Except DErr (Function × List Nat)}
    (hG : PSpec G) : PSpec (get_functionBody G) :=
  pspec_pseq pspec_get_string (fun source =>
  pspec_pseq (pspec_takeExact (by simp [TruncErrs])) (fun hdr =>
  pspec_pseq (pspec_takeExact (by simp [TruncErrs])) (fun codeblk =>
  pspec_pseq (pspec_preplicate pspec_readConstant _) (fun constants =>
  pspec_pseq (pspec_takeExact (by simp [TruncErrs])) (fun funlenB =>
  pspec_pseq (pspec_preplicate hG _) (fun funs =>
  pspec_pseq (pspec_takeExact (by simp [TruncErrs])) (fun liszB =>
  pspec_pseq (pspec_takeExact (by simp [TruncErrs])) (fun liblk =>
  pspec_pseq (pspec_takeExact (by simp [TruncErrs])) (fun lvszB =>
  pspec_pseq (pspec_preplicate pspec_readLocVar _) (fun locvars =>
  pspec_pseq (pspec_takeExact (by simp [TruncErrs])) (fun uvszB =>
  pspec_pmap (pspec_preplicate pspec_get_string _) _)))))))))))

theorem pspec_get_functionF : ∀ fuel, PSpec (get_functionF fuel) := by
  intro fuel
  induction fuel with
  | zero =>
    constructor
    · intro buf v rest h; exact absurd h (by simp [get_functionF])
    · intro pre rest v h; exact absurd h (by simp [get_functionF])
    · intro pre rest v h; exact absurd h (by simp [get_functionF])
  | succ n ih =>
    have h : get_functionF (n + 1) = get_functionBody (get_functionF n) := rfl
    rw [h]
    exact pspec_get_functionBody ih

theorem pspec_shrink {α : Type} {P : List Nat → Except DErr (α × List Nat)}
    (hP : PSpec P) : ∀ b (v : α) r, P b = .ok (v, r) → r.length ≤ b.length := by
  intro b v r h
  obtain ⟨pre, hb⟩ := hP.consumes _ _ _ h
  rw [hb, List.length_append]
  omega

theorem get_string_shrink {buf : List Nat} {s : String} {r : List Nat}
    (h : get_string buf = .ok (s, r)) : r.length + 8 ≤ buf.length := by
  obtain ⟨h8, hn, hs, hr⟩ := get_string_ok h
  rw [hr, List.length_drop]
  omega

theorem takeExact_shrink {k : Nat} {e : DErr} {buf a r : List Nat}
    (h : takeExact k e buf = .ok (a, r)) : r.length ≤ buf.length := by
  obtain ⟨hk, ha, hr⟩ := takeExact_ok h
  rw [hr, List.length_drop]
  omega

theorem takeExact_nofuel {k : Nat} {e : DErr} {buf : List Nat} (he : e ≠ DErr.fuel) :
    takeExact k e buf ≠ .error DErr.fuel := by
  by_cases hk : buf.length < k
  · rw [takeExact_of_lt hk]
    intro hcon
    simp only [Except.error.injEq] at hcon
    exact he hcon
  · rw [takeExact_of_le (Nat.not_lt.mp hk)]
    simp

theorem get_string_nofuel {buf : List Nat} : get_string buf ≠ .error DErr.fuel := by
  unfold get_string
  split_ifs <;> simp

theorem pseq_nofuel {α β : Type} {P : List Nat → Except DErr (α × List Nat)}
    {Q : α → List Nat → Except DErr (β × List Nat)} {buf : List Nat}
    (hP : P buf ≠ .error DErr.fuel)
    (hQ : ∀ a b1, P buf = .ok (a, b1) → Q a b1 ≠ .error DErr.fuel) :
    pseq P Q buf ≠ .error DErr.fuel := by
  intro hcon
  rcases pseq_err hcon with he | ⟨a, b1, hok, he⟩
  · exact hP he
  · exact hQ a b1 hok he

theorem pmap_nofuel {α β : Type} {P : List Nat → Except DErr (α × List Nat)}
    {f : α → β} {buf : List Nat} (hP : P buf ≠ .error DErr.fuel) :
    pmap P f buf ≠ .error DErr.fuel :=
  fun hcon => hP (pmap_err hcon)

theorem preplicate_nofuel {α : Type} {P : List Nat → Except DErr (α × List Nat)}
    {L : Nat} (hP : ∀ b, b.length ≤ L → P b ≠ .error DErr.fuel)
    (hPs : ∀ b (a : α) r, P b = .ok (a, r) → r.length ≤ b.length) :
    ∀ n b, b.length ≤ L → preplicate P n b ≠ .error DErr.fuel := by
  intro n
  induction n with
  | zero =>
    intro b hb
    have h0 : preplicate P 0 b = .ok ([], b) := rfl
    rw [h0]
    simp
  | succ n ih =>
    intro b hb
    rw [preplicate_succ]
    apply pseq_nofuel (hP b hb)
    intro a b1 hok
    apply pmap_nofuel
    exact ih b1 (le_trans (hPs _ _ _ hok) hb)

theorem constPayload_nofuel (t : Nat) (b : List Nat) :
    constPayload t b ≠ .error DErr.fuel := by
  by_cases h0 : t = 0
  · subst h0
    have h : constPayload 0 b = .ok (Constant.Nil, b) := rfl
    rw [h]
    simp
  by_cases h1 : t = 1
  · subst h1
    exact pmap_nofuel (takeExact_nofuel (by simp))
  by_cases h3 : t = 3
  · subst h3
    exact pmap_nofuel (takeExact_nofuel (by simp))
  by_cases h4 : t = 4
  · subst h4
    exact pmap_nofuel get_string_nofuel
  · have h : constPayload t b =
        .error (DErr.msg (String.append ("invalid constant type ") (toString t))) := by
      simp only [constPayload, if_neg h0, if_neg h1, if_neg h3, if_neg h4, pfail]
    rw [h]
    simp

theorem readConstant_nofuel (b : List Nat) : readConstant b ≠ .error DErr.fuel :=
  pseq_nofuel (takeExact_nofuel (by simp))
    (fun tagB b1 _ => constPayload_nofuel (leNat tagB) b1)

theorem readLocVar_nofuel (b : List Nat) : readLocVar b ≠ .error DErr.fuel :=
  pseq_nofuel get_string_nofuel
    (fun name b1 _ => pmap_nofuel (takeExact_nofuel (by simp)))

theorem get_functionBody_nofuel {G : List Nat → Except DErr (Function × List Nat)}
    {buf : List Nat}
    (HG : ∀ b, b.length < buf.length → G b ≠ .error DErr.fuel)
    (HGs : ∀ b (v : Function) r, G b = .ok (v, r) → r.length ≤ b.length) :
    get_functionBody G buf ≠ .error DErr.fuel := by
  apply pseq_nofuel get_string_nofuel
  intro source b1 h1
  apply pseq_nofuel (takeExact_nofuel (by simp))
  intro hdr b2 h2
  apply pseq_nofuel (takeExact_nofuel (by simp))
  intro codeblk b3 h3
  apply pseq_nofuel (preplicate_nofuel (L := b3.length)
    (fun b _ => readConstant_nofuel b)
    (fun b a r h => pspec_shrink pspec_readConstant _ _ _ h) _ _ (le_refl _))
  intro constants b4 h4
  apply pseq_nofuel (takeExact_nofuel (by simp))
  intro funlenB b5 h5
  have hlt : b5.length < buf.length := by
    have s1 := get_string_shrink h1
    have s2 := takeExact_shrink h2
    have s3 := takeExact_shrink h3
    have s4 := pspec_shrink (pspec_preplicate pspec_readConstant _) _ _ _ h4
    have s5 := takeExact_shrink h5
    omega
  apply pseq_nofuel (preplicate_nofuel (L := b5.length)
    (fun b hb => HG b (lt_of_le_of_lt hb hlt)) HGs _ _ (le_refl _))
  intro funs b6 h6
  apply pseq_nofuel (takeExact_nofuel (by simp))
  intro liszB b7 h7
  apply pseq_nofuel (takeExact_nofuel (by simp))
  intro liblk b8 h8
  apply pseq_nofuel (takeExact_nofuel (by simp))
  intro lvszB b9 h9
  apply pseq_nofuel (preplicate_nofuel (L := b9.length)
    (fun b _ => readLocVar_nofuel b)
    (fun b a r h => pspec_shrink pspec_readLocVar _ _ _ h) _ _ (le_refl _))
  intro locvars b10 h10
  apply pseq_nofuel (takeExact_nofuel (by simp))
  intro uvszB b11 h11
  apply pmap_nofuel
  exact preplicate_nofuel (L := b11.length) (fun b _ => get_string_nofuel)
    (fun b a r h => pspec_shrink pspec_get_string _ _ _ h) _ _ (le_refl _)

theorem preplicate_shrink {α : Type} {P : List Nat → Except DErr (α × List Nat)}
    (hP : ∀ b (a : α) r, P b = .ok (a, r) → r.length ≤ b.length) :
    ∀ n b (as : List α) r, preplicate P n b = .ok (as, r) → r.length ≤ b.length := by
  intro n
  induction n with
  | zero =>
    intro b as r h
    have h0 : preplicate P 0 b = .ok ([], b) := rfl
    rw [h0] at h
    simp only [Except.ok.injEq, Prod.mk.injEq] at h
    rw [← h.2]
  | succ n ih =>
    intro b as r h
    rw [preplicate_succ] at h
    obtain ⟨a, b1, hPa, hrest⟩ := pseq_ok h
    obtain ⟨as2, hrep, hv⟩ := pmap_ok hrest
    exact le_trans (ih _ _ _ hrep) (hP _ _ _ hPa)

theorem get_functionBody_shrink {G : List Nat → Except DErr (Function × List Nat)}
    {buf r : List Nat} {v : Function}
    (HGs : ∀ b (v' : Function) r', G b = .ok (v', r') → r'.length ≤ b.length)
    (h : get_functionBody G buf = .ok (v, r)) : r.length + 8 ≤ buf.length := by
  obtain ⟨source, b1, h1, h⟩ := pseq_ok h
  obtain ⟨hdr, b2, h2, h⟩ := pseq_ok h
  obtain ⟨codeblk, b3, h3, h⟩ := pseq_ok h
  obtain ⟨constants, b4, h4, h⟩ := pseq_ok h
  obtain ⟨funlenB, b5, h5, h⟩ := pseq_ok h
  obtain ⟨funs, b6, h6, h⟩ := pseq_ok h
  obtain ⟨liszB, b7, h7, h⟩ := pseq_ok h
  obtain ⟨liblk, b8, h8, h⟩ := pseq_ok h
  obtain ⟨lvszB, b9, h9, h⟩ := pseq_ok h
  obtain ⟨locvars, b10, h10, h⟩ := pseq_ok h
  obtain ⟨uvszB, b11, h11, h⟩ := pseq_ok h
  obtain ⟨upvalues, h12, hv⟩ := pmap_ok h
  have s1 := get_string_shrink h1
  have s2 := takeExact_shrink h2
  have s3 := takeExact_shrink h3
  have s4 := preplicate_shrink
    (fun b a r h' => pspec_shrink pspec_readConstant _ _ _ h') _ _ _ _ h4
  have s5 := takeExact_shrink h5
  have s6 := preplicate_shrink HGs _ _ _ _ h6
  have s7 := takeExact_shrink h7
  have s8 := takeExact_shrink h8
  have s9 := takeExact_shrink h9
  have s10 := preplicate_shrink
    (fun b a r h' => pspec_shrink pspec_readLocVar _ _ _ h') _ _ _ _ h10
  have s11 := takeExact_shrink h11
  have s12 := preplicate_shrink
    (fun b a r h' => pspec_shrink pspec_get_string _ _ _ h') _ _ _ _ h12
  omega

theorem get_functionF_shrink : ∀ fuel (buf : List Nat) (v : Function) r,
    get_functionF fuel buf = .ok (v, r) → r.length + 8 ≤ buf.length := by
  intro fuel buf v r h
  cases fuel with
  | zero => exact absurd h (by simp [get_functionF])
  | succ n =>
    have hdef : get_functionF (n + 1) buf = get_functionBody (get_functionF n) buf := rfl
    rw [hdef] at h
    exact get_functionBody_shrink
      (fun b v' r' h' => pspec_shrink (pspec_get_functionF n) _ _ _ h') h

theorem get_functionF_nofuel : ∀ fuel (buf : List Nat), buf.length < fuel →
    get_functionF fuel buf ≠ .error DErr.fuel := by
  intro fuel
  induction fuel with
  | zero => intro buf h; exact absurd h (Nat.not_lt_zero _)
  | succ n ih =>
    intro buf h
    have hdef : get_functionF (n + 1) buf = get_functionBody (get_functionF n) buf := rfl
    rw [hdef]
    apply get_functionBody_nofuel
    · intro b hb
      exact ih b (by omega)
    · intro b v r hok
      exact pspec_shrink (pspec_get_functionF n) _ _ _ hok

theorem rm_refl {α : Type} (P : List Nat → Except DErr (α × List Nat)) : RM P P :=
  fun _ _ h _ => h

theorem rm_pseq {α β : Type} {P P' : List Nat → Except DErr (α × List Nat)}
    {Q Q' : α → List Nat → Except DErr (β × List Nat)}
    (hP : RM P P') (hQ : ∀ a, RM (Q a) (Q' a)) : RM (pseq P Q) (pseq P' Q') := by
  intro buf r h hne
  subst h
  cases hp : P buf with
  | error e =>
    rw [pseq_of_err hp] at hne ⊢
    have hef : e ≠ DErr.fuel := fun hc => hne (by rw [hc])
    rw [pseq_of_err (hP buf (.error e) hp (fun hc => hef (Except.error.inj hc)))]
  | ok p =>
    obtain ⟨a, b1⟩ := p
    have hP' := hP buf (.ok (a, b1)) hp (by simp)
    rw [pseq_of_ok hp] at hne ⊢
    rw [pseq_of_ok hP']
    exact hQ a b1 _ rfl hne

theorem rm_pmap {α β : Type} {P P' : List Nat → Except DErr (α × List Nat)}
    {f : α → β} (hP : RM P P') : RM (pmap P f) (pmap P' f) := by
  intro buf r h hne
  subst h
  cases hp : P buf with
  | error e =>
    rw [pmap_of_err hp] at hne ⊢
    have hef : e ≠ DErr.fuel := fun hc => hne (by rw [hc])
    rw [pmap_of_err (hP buf (.error e) hp (fun hc => hef (Except.error.inj hc)))]
  | ok p =>
    obtain ⟨a, b1⟩ := p
    have hP' := hP buf (.ok (a, b1)) hp (by simp)
    rw [pmap_of_ok hp, pmap_of_ok hP']

theorem rm_preplicate {α : Type} {P P' : List Nat → Except DErr (α × List Nat)}
    (hP : RM P P') : ∀ n, RM (preplicate P n) (preplicate P' n) := by
  intro n
  induction n with
  | zero =>
    intro buf r h hne
    rw [← h]
    rfl
  | succ n ih =>
    rw [preplicate_succ, preplicate_succ]
    exact rm_pseq hP (fun a => rm_pmap ih)

theorem rm_get_functionBody {G G' : List Nat → Except DErr (Function × List Nat)}
    (hG : RM G G') : RM (get_functionBody G) (get_functionBody G') :=
  rm_pseq (rm_refl _) (fun source =>
  rm_pseq (rm_refl _) (fun hdr =>
  rm_pseq (rm_refl _) (fun codeblk =>
  rm_pseq (rm_refl _) (fun constants =>
  rm_pseq (rm_refl _) (fun funlenB =>
  rm_pseq (rm_preplicate hG _) (fun funs =>
  rm_pseq (rm_refl _) (fun liszB =>
  rm_pseq (rm_refl _) (fun liblk =>
  rm_pseq (rm_refl _) (fun lvszB =>
  rm_pseq (rm_refl _) (fun locvars =>
  rm_pseq (rm_refl _) (fun uvszB =>
  rm_pmap (rm_refl _))))))))))))

theorem get_functionF_mono : ∀ fuel fuel', fuel ≤ fuel' →
    RM (get_functionF fuel) (get_functionF fuel') := by
  intro fuel
  induction fuel with
  | zero =>
    intro fuel' hle buf r hr hne
    have h0 : get_functionF 0 buf = .error DErr.fuel := rfl
    rw [h0] at hr
    exact absurd hr.symm hne
  | succ n ih =>
    intro fuel' hle
    cases fuel' with
    | zero => exact absurd hle (by omega)
    | succ m =>
      intro buf r hr hne
      have hd1 : get_functionF (n + 1) buf = get_functionBody (get_functionF n) buf := rfl
      have hd2 : get_functionF (m + 1) buf = get_functionBody (get_functionF m) buf := rfl
      rw [hd1] at hr
      rw [hd2]
      exact rm_get_functionBody (ih m (by omega)) buf r hr hne

theorem get_functionF_irrel : ∀ fuel fuel' (buf : List Nat), buf.length < fuel →
    buf.length < fuel' → get_functionF fuel buf = get_functionF fuel' buf := by
  intro fuel fuel' buf h h'
  rcases le_total fuel fuel' with hle | hle
  · exact (get_functionF_mono fuel fuel' hle buf _ rfl (get_functionF_nofuel fuel buf h)).symm
  · exact get_functionF_mono fuel' fuel hle buf _ rfl (get_functionF_nofuel fuel' buf h')

theorem checkHeader_ok_inv {data p : List Nat} (h : checkHeader data = .ok p) :
    12 ≤ data.length ∧ p = data.drop 12 ∧
    data.take 4 = [27, 76, 117, 97] ∧ data.getD 4 0 = 81 ∧ data.getD 5 0 = 0 ∧
    data.getD 6 0 = 1 ∧ data.getD 7 0 = 4 ∧ data.getD 8 0 = 8 ∧
    data.getD 9 0 = 4 ∧ data.getD 10 0 = 8 ∧ data.getD 11 0 = 0 := by
  unfold checkHeader at h
  by_cases h1 : data.length < 12
  · rw [if_pos h1] at h; exact absurd h (by simp)
  rw [if_neg h1] at h
  by_cases h2 : data.take 4 ≠ [27, 76, 117, 97]
  · rw [if_pos h2] at h; exact absurd h (by simp)
  rw [if_neg h2] at h
  by_cases h3 : data.getD 4 0 ≠ 81
  · rw [if_pos h3] at h; exact absurd h (by simp)
  rw [if_neg h3] at h
  by_cases h4 : data.getD 5 0 ≠ 0
  · rw [if_pos h4] at h; exact absurd h (by simp)
  rw [if_neg h4] at h
  by_cases h5 : data.getD 6 0 ≠ 1
  · rw [if_pos h5] at h; exact absurd h (by simp)
  rw [if_neg h5] at h
  by_cases h6 : data.getD 7 0 ≠ 4
  · rw [if_pos h6] at h; exact absurd h (by simp)
  rw [if_neg h6] at h
  by_cases h7 : data.getD 8 0 ≠ 8
  · rw [if_pos h7] at h; exact absurd h (by simp)
  rw [if_neg h7] at h
  by_cases h8 : data.getD 9 0 ≠ 4
  · rw [if_pos h8] at h; exact absurd h (by simp)
  rw [if_neg h8] at h
  by_cases h9 : data.getD 10 0 ≠ 8
  · rw [if_pos h9] at h; exact absurd h (by simp)
  rw [if_neg h9] at h
  by_cases h10 : data.getD 11 0 ≠ 0
  · rw [if_pos h10] at h; exact absurd h (by simp)
  rw [if_neg h10] at h
  simp only [Except.ok.injEq] at h
  exact ⟨Nat.not_lt.mp h1, h.symm, not_not.mp h2, not_not.mp h3, not_not.mp h4,
    not_not.mp h5, not_not.mp h6, not_not.mp h7, not_not.mp h8, not_not.mp h9,
    not_not.mp h10⟩

theorem checkHeader_build {data : List Nat} (hlen : 12 ≤ data.length)
    (hm : data.take 4 = [27, 76, 117, 97]) (h4 : data.getD 4 0 = 81)
    (h5 : data.getD 5 0 = 0) (h6 : data.getD 6 0 = 1) (h7 : data.getD 7 0 = 4)
    (h8 : data.getD 8 0 = 8) (h9 : data.getD 9 0 = 4) (h10 : data.getD 10 0 = 8)
    (h11 : data.getD 11 0 = 0) : checkHeader data = .ok (data.drop 12) := by
  unfold checkHeader
  rw [if_neg (Nat.not_lt.mpr hlen),
    if_neg (by simp only [ne_eq, not_not]; exact hm),
    if_neg (by simp only [ne_eq, not_not]; exact h4),
    if_neg (by simp only [ne_eq, not_not]; exact h5),
    if_neg (by simp only [ne_eq, not_not]; exact h6),
    if_neg (by simp only [ne_eq, not_not]; exact h7),
    if_neg (by simp only [ne_eq, not_not]; exact h8),
    if_neg (by simp only [ne_eq, not_not]; exact h9),
    if_neg (by simp only [ne_eq, not_not]; exact h10),
    if_neg (by simp only [ne_eq, not_not]; exact h11)]

theorem checkHeader_append {data p : List Nat} (h : checkHeader data = .ok p)
    (extra : List Nat) : checkHeader (data ++ extra) = .ok (p ++ extra) := by
  obtain ⟨hlen, hp, hm, h4, h5, h6, h7, h8, h9, h10, h11⟩ := checkHeader_ok_inv h
  have hge : 12 ≤ (data ++ extra).length := by rw [List.length_append]; omega
  have e4 : (data ++ extra).take 4 = data.take 4 :=
    List.take_append_of_le_length (by omega)
  have eg : ∀ i, i < 12 → (data ++ extra).getD i 0 = data.getD i 0 :=
    fun i hi => List.getD_append _ _ _ _ (by omega)
  rw [checkHeader_build hge (by rw [e4, hm]) (by rw [eg 4 (by omega)]; exact h4)
    (by rw [eg 5 (by omega)]; exact h5) (by rw [eg 6 (by omega)]; exact h6)
    (by rw [eg 7 (by omega)]; exact h7) (by rw [eg 8 (by omega)]; exact h8)
    (by rw [eg 9 (by omega)]; exact h9) (by rw [eg 10 (by omega)]; exact h10)
    (by rw [eg 11 (by omega)]; exact h11)]
  rw [List.drop_append_of_le_length (by omega), hp]

theorem checkHeader_take {data p : List Nat} (h : checkHeader data = .ok p)
    {k : Nat} (hk : 12 ≤ k) : checkHeader (data.take k) = .ok (p.take (k - 12)) := by
  obtain ⟨hlen, hp, hm, h4, h5, h6, h7, h8, h9, h10, h11⟩ := checkHeader_ok_inv h
  have hlen' : 12 ≤ (data.take k).length := by rw [List.length_take]; omega
  have e4 : (data.take k).take 4 = data.take 4 := by
    rw [List.take_take, Nat.min_eq_left (by omega : (4 : Nat) ≤ k)]
  have eg : ∀ i, i < 12 → (data.take k).getD i 0 = data.getD i 0 := by
    intro i hi
    rw [List.getD_eq_getElem?_getD, List.getD_eq_getElem?_getD,
      List.getElem?_take_of_lt (by omega : i < k)]
  rw [checkHeader_build hlen' (by rw [e4, hm]) (by rw [eg 4 (by omega)]; exact h4)
    (by rw [eg 5 (by omega)]; exact h5) (by rw [eg 6 (by omega)]; exact h6)
    (by rw [eg 7 (by omega)]; exact h7) (by rw [eg 8 (by omega)]; exact h8)
    (by rw [eg 9 (by omega)]; exact h9) (by rw [eg 10 (by omega)]; exact h10)
    (by rw [eg 11 (by omega)]; exact h11)]
  rw [List.drop_take, hp]

theorem checkHeader_take_short {data : List Nat} {k : Nat} (hk : k < 12)
    (hkd : k ≤ data.length) :
    checkHeader (data.take k) = .error (DErr.msg ("truncated header")) := by
  unfold checkHeader
  rw [if_pos]
  rw [List.length_take]
  omega

theorem undump_of_header_err {data : List Nat} {e : DErr}
    (h : checkHeader data = .error e) : undump data = .error e := by
  simp [undump, h]

theorem undump_of_fun_err {data p : List Nat} {e : DErr}
    (hc : checkHeader data = .ok p) (hg : get_function p = .error e) :
    undump data = .error e := by
  simp [undump, hc, hg]

theorem undump_of_fun_ok {data p rest : List Nat} {f : Function}
    (hc : checkHeader data = .ok p) (hg : get_function p = .ok (f, rest)) :
    undump data =
      if rest.isEmpty then .ok f else .error (extraneousMsg rest.length) := by
  simp [undump, hc, hg]

theorem undump_ok_inv {data : List Nat} {f : Function} (h : undump data = .ok f) :
    ∃ p, checkHeader data = .ok p ∧ get_function p = .ok (f, []) := by
  cases hc : checkHeader data with
  | error e => rw [undump_of_header_err hc] at h; exact absurd h (by simp)
  | ok p =>
    cases hg : get_function p with
    | error e => rw [undump_of_fun_err hc hg] at h; exact absurd h (by simp)
    | ok q =>
      obtain ⟨f2, rest⟩ := q
      rw [undump_of_fun_ok hc hg] at h
      by_cases hr : rest.isEmpty
      · rw [if_pos hr] at h
        simp only [Except.ok.injEq] at h
        refine ⟨p, rfl, ?_⟩
        rw [h, List.isEmpty_iff.mp hr] at hg
        exact hg
      · rw [if_neg hr] at h
        exact absurd h (by simp)

/-- C1 (counterexample): the fixed reference chunk of the source's test is
121 bytes long, not 137 bytes as the claim states. -/
theorem c1_length_cex : refChunk.length = 121 ∧ refChunk.length ≠ 137 := by
  constructor
  · rfl
  · decide

/-- C1 (amended): decoding the fixed 121-byte reference chunk (top-level
function with `is_vararg = 2`, `maxstacksize = 2`, four instructions, the
constants `Number(42.0)` and `String("hello")`, four line-info entries
equal to 1, no nested functions, locals or upvalues) succeeds, produces
exactly that tree, and consumes the entire buffer with zero bytes
remaining. -/
theorem c1_reference_chunk :
    undump refChunk = .ok refFunction ∧ refChunk.length = 121 ∧
    get_function (refChunk.drop 12) = .ok (refFunction, []) :=
  ⟨by rfl, by rfl, by rfl⟩

/-- C2: for every buffer on which `undump` succeeds, decoding any strict
prefix fails with an insufficient-remaining-bytes (truncation) error. -/
theorem c2_prefix_truncation : ∀ (data : List Nat) (f : Function),
    undump data = .ok f → ∀ k, k < data.length →
    ∃ e, undump (data.take k) = .error e ∧ e ∈ TruncErrs := by
  intro data f h k hk
  obtain ⟨p, hc, hg⟩ := undump_ok_inv h
  obtain ⟨hlen12, hp, -, -, -, -, -, -, -, -, -⟩ := checkHeader_ok_inv hc
  have hplen : p.length = data.length - 12 := by rw [hp, List.length_drop]
  by_cases hk12 : k < 12
  · refine ⟨DErr.msg ("truncated header"), ?_, by simp [TruncErrs]⟩
    exact undump_of_header_err (checkHeader_take_short hk12 (by omega))
  · have hck := checkHeader_take hc (Nat.not_lt.mp hk12)
    have hg' : get_functionF (p.length + 1) (p ++ []) = .ok (f, []) := by
      rw [List.append_nil]
      exact hg
    obtain ⟨e, he, hmem⟩ := (pspec_get_functionF (p.length + 1)).cut p [] f hg'
      (k - 12) (by omega)
    refine ⟨e, ?_, hmem⟩
    have hfi : get_function (p.take (k - 12)) = .error e := by
      unfold get_function
      rw [get_functionF_irrel ((p.take (k - 12)).length + 1) (p.length + 1) _
        (by omega) (by rw [List.length_take]; omega)]
      exact he
    exact undump_of_fun_err hck hfi

/-- C2 witness at a concrete input: cutting the reference chunk to 100
bytes yields a truncation error. -/
theorem c2_witness : ∃ e, undump (refChunk.take 100) = .error e ∧ e ∈ TruncErrs :=
  c2_prefix_truncation refChunk refFunction (by rfl) 100 (by decide)

/-- C3: `undump` succeeds exactly when the header checks pass and one
prototype read consumes every remaining byte; appending extra bytes to a
successfully decoded buffer fails with the `extraneous bytes ({})` error
naming the remaining count. -/
theorem c3_exact_consumption : ∀ (data : List Nat) (f : Function),
    (undump data = .ok f ↔
      ∃ p, checkHeader data = .ok p ∧ get_function p = .ok (f, [])) ∧
    (undump data = .ok f → ∀ extra : List Nat, extra ≠ [] →
      undump (data ++ extra) = .error (extraneousMsg extra.length)) := by
  intro data f
  constructor
  · constructor
    · exact undump_ok_inv
    · rintro ⟨p, hc, hg⟩
      rw [undump_of_fun_ok hc hg]
      rfl
  · intro h extra hne
    obtain ⟨p, hc, hg⟩ := undump_ok_inv h
    have hc' := checkHeader_append hc extra
    have hg0 : get_functionF (p.length + 1) (p ++ []) = .ok (f, []) := by
      rw [List.append_nil]
      exact hg
    have hfr := (pspec_get_functionF (p.length + 1)).frame p [] f hg0 extra
    have hg' : get_function (p ++ extra) = .ok (f, extra) := by
      unfold get_function
      exact get_functionF_mono (p.length + 1) ((p ++ extra).length + 1)
        (by rw [List.length_append]; omega) _ _ hfr (by simp)
    rw [undump_of_fun_ok hc' hg',
      if_neg (by simp only [List.isEmpty_iff]; exact hne)]

/-- C3 witness at a concrete input: one byte appended to the reference
chunk is reported as `extraneous bytes (1)`. -/
theorem c3_witness : undump (refChunk ++ [0]) = .error (extraneousMsg 1) :=
  (c3_exact_consumption refChunk refFunction).2 (by rfl) [0] (by simp)

/-- C4: the string reader fails on fewer than 8 bytes, reads a 64-bit
little-endian length `n`, fails if fewer than `n` bytes remain, yields the
empty string for `n = 0` consuming nothing further, and otherwise yields
the first `n - 1` bytes lossily decoded, discards the terminator, and
advances by the full `n` bytes. -/
theorem c4_string_reader : ∀ buf : List Nat,
    (buf.length < 8 → get_string buf = .error (DErr.msg ("truncated string length"))) ∧
    (8 ≤ buf.length → buf.length - 8 < leNat (buf.take 8) →
      get_string buf = .error (DErr.msg ("truncated string contents"))) ∧
    (8 ≤ buf.length → leNat (buf.take 8) ≤ buf.length - 8 →
      get_string buf = .ok
        (if leNat (buf.take 8) = 0 then ("")
         else utf8Lossy ((buf.drop 8).take (leNat (buf.take 8) - 1)),
         buf.drop (8 + leNat (buf.take 8)))) :=
  fun buf => ⟨get_string_short, fun h8 hn => get_string_noContents h8 hn,
    fun h8 hn => get_string_ok_eq h8 hn⟩

/-- C4 witness at concrete inputs: a length-3 string decodes its first two
bytes and discards the terminator; length 0 yields the empty string; a
missing payload and a missing length fail with the respective errors. -/
theorem c4_witness :
    get_string [3, 0, 0, 0, 0, 0, 0, 0, 104, 105, 0] = .ok (("hi"), []) ∧
    get_string [0, 0, 0, 0, 0, 0, 0, 0] = .ok ((""), []) ∧
    get_string [9, 0, 0, 0, 0, 0, 0, 0, 104] =
      .error (DErr.msg ("truncated string contents")) ∧
    get_string [1, 2, 3] = .error (DErr.msg ("truncated string length")) := by
  refine ⟨?_, ?_, ?_, ?_⟩
  · have h := (c4_string_reader [3, 0, 0, 0, 0, 0, 0, 0, 104, 105, 0]).2.2
      (by decide) (by decide)
    rw [h]
    rfl
  · have h := (c4_string_reader [0, 0, 0, 0, 0, 0, 0, 0]).2.2 (by decide) (by decide)
    rw [h]
    rfl
  · exact (c4_string_reader [9, 0, 0, 0, 0, 0, 0, 0, 104]).2.1 (by decide) (by decide)
  · exact (c4_string_reader [1, 2, 3]).1 (by decide)

/-- C9: the decoder terminates on every input: the fuel-indexed prototype
reader never exhausts its fuel once the fuel exceeds the buffer length
(recursion depth is bounded by the input size), and its result does not
depend on the fuel. -/
theorem c9_termination : ∀ (data : List Nat) (f1 f2 : Nat), data.length < f1 →
    data.length < f2 →
    get_functionF f1 data = get_functionF f2 data ∧
    get_functionF f1 data ≠ .error DErr.fuel :=
  fun data f1 f2 h1 h2 =>
    ⟨get_functionF_irrel f1 f2 data h1 h2, get_functionF_nofuel f1 data h1⟩

/-- C9 witness at a concrete input. -/
theorem c9_witness :
    get_functionF 1 [] = get_functionF 5 [] ∧
    get_functionF 1 [] ≠ .error DErr.fuel :=
  c9_termination [] 1 5 (by decide) (by decide)

/-- C10: a Boolean constant decodes to `true` exactly when its payload
byte is nonzero. -/
theorem c10_boolean_nonzero : ∀ (b : Nat) (rest : List Nat),
    (b ≠ 0 → readConstant (1 :: b :: rest) = .ok (Constant.Boolean true, rest)) ∧
    (b = 0 → readConstant (1 :: b :: rest) = .ok (Constant.Boolean false, rest)) := by
  intro b rest
  have hbase : readConstant (1 :: b :: rest) = .ok (Constant.Boolean (b != 0), rest) := by
    rw [show readConstant (1 :: b :: rest) =
      pseq (takeExact 1 (DErr.msg ("truncated constants")))
        (fun tagB => constPayload (leNat tagB)) (1 :: b :: rest) from rfl]
    rw [pseq_of_ok (takeExact_of_le (by simp only [List.length_cons]; omega))]
    show constPayload 1 (b :: rest) = .ok (Constant.Boolean (b != 0), rest)
    rw [show constPayload 1 =
      pmap (takeExact 1 (DErr.cond ("self.remaining() >= 1")))
        (fun bs => Constant.Boolean (bs.getD 0 0 != 0)) from rfl]
    rw [pmap_of_ok (takeExact_of_le (by simp only [List.length_cons]; omega))]
    rfl
  constructor
  · intro hb
    rw [hbase]
    have hbt : (b != 0) = true := by simp [hb]
    rw [hbt]
  · intro hb
    subst hb
    rw [hbase]
    rfl

/-- C10 witness at a concrete input: payload byte 7 (not only 1) decodes
to `true`, payload byte 0 to `false`. -/
theorem c10_witness :
    readConstant [1, 7] = .ok (Constant.Boolean true, []) ∧
    readConstant [1, 0] = .ok (Constant.Boolean false, []) :=
  ⟨(c10_boolean_nonzero 7 []).1 (by decide), (c10_boolean_nonzero 0 []).2 (by rfl)⟩

/-- C5: each constant decode reads a guarded 1-byte tag, then: tag 0 has no
payload (`Nil`); tag 1 one byte (`Boolean`); tag 3 eight little-endian
bytes (`Number`); tag 4 a string via the string reader (`String`); any
other tag byte fails with the invalid-constant-type error carrying the tag
value, which also fails a whole decode. -/
theorem c5_constant_tags :
    (readConstant [] = .error (DErr.msg ("truncated constants"))) ∧
    (∀ rest : List Nat, readConstant (0 :: rest) = .ok (Constant.Nil, rest)) ∧
    (∀ (b : Nat) (rest : List Nat),
      readConstant (1 :: b :: rest) = .ok (Constant.Boolean (b != 0), rest)) ∧
    (∀ rest : List Nat, 8 ≤ rest.length →
      readConstant (3 :: rest) =
        .ok (Constant.Number (leNat (rest.take 8)), rest.drop 8)) ∧
    (∀ rest : List Nat,
      readConstant (4 :: rest) = pmap get_string Constant.String rest) ∧
    (∀ (t : Nat) (rest : List Nat), t < 256 → t ≠ 0 → t ≠ 1 → t ≠ 3 → t ≠ 4 →
      readConstant (t :: rest) =
        .error (DErr.msg (String.append ("invalid constant type ") (toString t)))) ∧
    undump refChunkTag2 = .error (DErr.msg ("invalid constant type 2")) := by
  refine ⟨by rfl, ?_, ?_, ?_, ?_, ?_, by rfl⟩
  · intro rest
    rw [show readConstant (0 :: rest) =
      pseq (takeExact 1 (DErr.msg ("truncated constants")))
        (fun tagB => constPayload (leNat tagB)) (0 :: rest) from rfl]
    rw [pseq_of_ok (takeExact_of_le (by simp only [List.length_cons]; omega))]
    rfl
  · intro b rest
    rw [show readConstant (1 :: b :: rest) =
      pseq (takeExact 1 (DErr.msg ("truncated constants")))
        (fun tagB => constPayload (leNat tagB)) (1 :: b :: rest) from rfl]
    rw [pseq_of_ok (takeExact_of_le (by simp only [List.length_cons]; omega))]
    show constPayload 1 (b :: rest) = .ok (Constant.Boolean (b != 0), rest)
    rw [show constPayload 1 =
      pmap (takeExact 1 (DErr.cond ("self.remaining() >= 1")))
        (fun bs => Constant.Boolean (bs.getD 0 0 != 0)) from rfl]
    rw [pmap_of_ok (takeExact_of_le (by simp only [List.length_cons]; omega))]
    rfl
  · intro rest h8
    rw [show readConstant (3 :: rest) =
      pseq (takeExact 1 (DErr.msg ("truncated constants")))
        (fun tagB => constPayload (leNat tagB)) (3 :: rest) from rfl]
    rw [pseq_of_ok (takeExact_of_le (by simp only [List.length_cons]; omega))]
    show constPayload 3 rest = .ok (Constant.Number (leNat (rest.take 8)), rest.drop 8)
    rw [show constPayload 3 =
      pmap (takeExact 8 (DErr.cond ("self.remaining() >= 8")))
        (fun bs => Constant.Number (leNat bs)) from rfl]
    rw [pmap_of_ok (takeExact_of_le h8)]
  · intro rest
    rw [show readConstant (4 :: rest) =
      pseq (takeExact 1 (DErr.msg ("truncated constants")))
        (fun tagB => constPayload (leNat tagB)) (4 :: rest) from rfl]
    rw [pseq_of_ok (takeExact_of_le (by simp only [List.length_cons]; omega))]
    rfl
  · intro t rest h256 h0 h1 h3 h4
    rw [show readConstant (t :: rest) =
      pseq (takeExact 1 (DErr.msg ("truncated constants")))
        (fun tagB => constPayload (leNat tagB)) (t :: rest) from rfl]
    rw [pseq_of_ok (takeExact_of_le (by simp only [List.length_cons]; omega))]
    show constPayload t rest = _
    unfold constPayload
    rw [if_neg h0, if_neg h1, if_neg h3, if_neg h4]
    rfl

/-- C5 witness at concrete inputs: a Number constant decodes its 8 payload
bytes (here the bit pattern of `42.0`), and the unrecognized tag 7 fails
naming the tag. -/
theorem c5_witness :
    readConstant [3, 0, 0, 0, 0, 0, 0, 69, 64] =
      .ok (Constant.Number 4631107791820423168, []) ∧
    readConstant [7] = .error (DErr.msg ("invalid constant type 7")) := by
  constructor
  · have h := c5_constant_tags.2.2.2.1 [0, 0, 0, 0, 0, 0, 69, 64] (by decide)
    rw [h]
    rfl
  · exact c5_constant_tags.2.2.2.2.2.1 7 [] (by decide) (by decide) (by decide)
      (by decide) (by decide)

/-- C6: header validation fails on fewer than 12 bytes; with 12 bytes
available it accepts exactly the buffers whose nine fields are all valid,
consuming 12 bytes, and a single invalid field (all others valid) fails
the whole decode with that field's error. -/
theorem c6_header_fields : ∀ data : List Nat,
    (data.length < 12 → undump data = .error (DErr.msg ("truncated header"))) ∧
    (12 ≤ data.length →
      ((∀ i, i < 9 → headerFieldOk i data = true) →
        checkHeader data = .ok (data.drop 12)) ∧
      (∀ i, i < 9 → (∀ j, j < 9 → j ≠ i → headerFieldOk j data = true) →
        headerFieldOk i data = false →
        checkHeader data = .error (headerFieldErr i) ∧
        undump data = .error (headerFieldErr i))) := by
  intro data
  constructor
  · intro hlt
    apply undump_of_header_err
    unfold checkHeader
    rw [if_pos hlt]
  · intro h12
    constructor
    · intro hall
      have v0 : data.take 4 = [27, 76, 117, 97] := by
        have := hall 0 (by omega)
        simpa [headerFieldOk] using this
      have v1 : data.getD 4 0 = 81 := by
        have := hall 1 (by omega)
        simpa [headerFieldOk] using this
      have v2 : data.getD 5 0 = 0 := by
        have := hall 2 (by omega)
        simpa [headerFieldOk] using this
      have v3 : data.getD 6 0 = 1 := by
        have := hall 3 (by omega)
        simpa [headerFieldOk] using this
      have v4 : data.getD 7 0 = 4 := by
        have := hall 4 (by omega)
        simpa [headerFieldOk] using this
      have v5 : data.getD 8 0 = 8 := by
        have := hall 5 (by omega)
        simpa [headerFieldOk] using this
      have v6 : data.getD 9 0 = 4 := by
        have := hall 6 (by omega)
        simpa [headerFieldOk] using this
      have v7 : data.getD 10 0 = 8 := by
        have := hall 7 (by omega)
        simpa [headerFieldOk] using this
      have v8 : data.getD 11 0 = 0 := by
        have := hall 8 (by omega)
        simpa [headerFieldOk] using this
      exact checkHeader_build h12 v0 v1 v2 v3 v4 v5 v6 v7 v8
    · intro i hi hvalid hfail
      have hne : Nat.not_lt.mpr h12 = Nat.not_lt.mpr h12 := rfl
      interval_cases i
      · have f0 : data.take 4 ≠ [27, 76, 117, 97] := by
          simpa [headerFieldOk] using hfail
        have hch : checkHeader data = .error (DErr.msg ("bad signature")) := by
          unfold checkHeader
          rw [if_neg (Nat.not_lt.mpr h12), if_pos f0]
        exact ⟨hch, undump_of_header_err hch⟩
      · have v0 : data.take 4 = [27, 76, 117, 97] := by
          have := hvalid 0 (by omega) (by omega)
          simpa [headerFieldOk] using this
        have f1 : data.getD 4 0 ≠ 81 := by
          simpa [headerFieldOk] using hfail
        have hch : checkHeader data = .error (DErr.msg ("bad luac version")) := by
          unfold checkHeader
          rw [if_neg (Nat.not_lt.mpr h12),
            if_neg (by simp only [ne_eq, not_not]; exact v0), if_pos f1]
        exact ⟨hch, undump_of_header_err hch⟩
      · have v0 : data.take 4 = [27, 76, 117, 97] := by
          have := hvalid 0 (by omega) (by omega)
          simpa [headerFieldOk] using this
        have v1 : data.getD 4 0 = 81 := by
          have := hvalid 1 (by omega) (by omega)
          simpa [headerFieldOk] using this
        have f2 : data.getD 5 0 ≠ 0 := by
          simpa [headerFieldOk] using hfail
        have hch : checkHeader data = .error (DErr.msg ("bad luac format")) := by
          unfold checkHeader
          rw [if_neg (Nat.not_lt.mpr h12),
            if_neg (by simp only [ne_eq, not_not]; exact v0),
            if_neg (by simp only [ne_eq, not_not]; exact v1), if_pos f2]
        exact ⟨hch, undump_of_header_err hch⟩
      · have v0 : data.take 4 = [27, 76, 117, 97] := by
          have := hvalid 0 (by omega) (by omega)
          simpa [headerFieldOk] using this
        have v1 : data.getD 4 0 = 81 := by
          have := hvalid 1 (by omega) (by omega)
          simpa [headerFieldOk] using this
        have v2 : data.getD 5 0 = 0 := by
          have := hvalid 2 (by omega) (by omega)
          simpa [headerFieldOk] using this
        have f3 : data.getD 6 0 ≠ 1 := by
          simpa [headerFieldOk] using hfail
        have hch : checkHeader data = .error (DErr.msg ("bad endianness")) := by
          unfold checkHeader
          rw [if_neg (Nat.not_lt.mpr h12),
            if_neg (by simp only [ne_eq, not_not]; exact v0),
            if_neg (by simp only [ne_eq, not_not]; exact v1),
            if_neg (by simp only [ne_eq, not_not]; exact v2), if_pos f3]
        exact ⟨hch, undump_of_header_err hch⟩
      · have v0 : data.take 4 = [27, 76, 117, 97] := by
          have := hvalid 0 (by omega) (by omega)
          simpa [headerFieldOk] using this
        have v1 : data.getD 4 0 = 81 := by
          have := hvalid 1 (by omega) (by omega)
          simpa [headerFieldOk] using this
        have v2 : data.getD 5 0 = 0 := by
          have := hvalid 2 (by omega) (by omega)
          simpa [headerFieldOk] using this
        have v3 : data.getD 6 0 = 1 := by
          have := hvalid 3 (by omega) (by omega)
          simpa [headerFieldOk] using this
        have f4 : data.getD 7 0 ≠ 4 := by
          simpa [headerFieldOk] using hfail
        have hch : checkHeader data = .error (DErr.msg ("bad sizeof(int)")) := by
          unfold checkHeader
          rw [if_neg (Nat.not_lt.mpr h12),
            if_neg (by simp only [ne_eq, not_not]; exact v0),
            if_neg (by simp only [ne_eq, not_not]; exact v1),
            if_neg (by simp only [ne_eq, not_not]; exact v2),
            if_neg (by simp only [ne_eq, not_not]; exact v3), if_pos f4]
        exact ⟨hch, undump_of_header_err hch⟩
      · have v0 : data.take 4 = [27, 76, 117, 97] := by
          have := hvalid 0 (by omega) (by omega)
          simpa [headerFieldOk] using this
        have v1 : data.getD 4 0 = 81 := by
          have := hvalid 1 (by omega) (by omega)
          simpa [headerFieldOk] using this
        have v2 : data.getD 5 0 = 0 := by
          have := hvalid 2 (by omega) (by omega)
          simpa [headerFieldOk] using this
        have v3 : data.getD 6 0 = 1 := by
          have := hvalid 3 (by omega) (by omega)
          simpa [headerFieldOk] using this
        have v4 : data.getD 7 0 = 4 := by
          have := hvalid 4 (by omega) (by omega)
          simpa [headerFieldOk] using this
        have f5 : data.getD 8 0 ≠ 8 := by
          simpa [headerFieldOk] using hfail
        have hch : checkHeader data = .error (DErr.msg ("bad sizeof(size_t)")) := by
          unfold checkHeader
          rw [if_neg (Nat.not_lt.mpr h12),
            if_neg (by simp only [ne_eq, not_not]; exact v0),
            if_neg (by simp only [ne_eq, not_not]; exact v1),
            if_neg (by simp only [ne_eq, not_not]; exact v2),
            if_neg (by simp only [ne_eq, not_not]; exact v3),
            if_neg (by simp only [ne_eq, not_not]; exact v4), if_pos f5]
        exact ⟨hch, undump_of_header_err hch⟩
      · have v0 : data.take 4 = [27, 76, 117, 97] := by
          have := hvalid 0 (by omega) (by omega)
          simpa [headerFieldOk] using this
        have v1 : data.getD 4 0 = 81 := by
          have := hvalid 1 (by omega) (by omega)
          simpa [headerFieldOk] using this
        have v2 : data.getD 5 0 = 0 := by
          have := hvalid 2 (by omega) (by omega)
          simpa [headerFieldOk] using this
        have v3 : data.getD 6 0 = 1 := by
          have := hvalid 3 (by omega) (by omega)
          simpa [headerFieldOk] using this
        have v4 : data.getD 7 0 = 4 := by
          have := hvalid 4 (by omega) (by omega)
          simpa [headerFieldOk] using this
        have v5 : data.getD 8 0 = 8 := by
          have := hvalid 5 (by omega) (by omega)
          simpa [headerFieldOk] using this
        have f6 : data.getD 9 0 ≠ 4 := by
          simpa [headerFieldOk] using hfail
        have hch : checkHeader data = .error (DErr.msg ("bad sizeof(Instruction)")) := by
          unfold checkHeader
          rw [if_neg (Nat.not_lt.mpr h12),
            if_neg (by simp only [ne_eq, not_not]; exact v0),
            if_neg (by simp only [ne_eq, not_not]; exact v1),
            if_neg (by simp only [ne_eq, not_not]; exact v2),
            if_neg (by simp only [ne_eq, not_not]; exact v3),
            if_neg (by simp only [ne_eq, not_not]; exact v4),
            if_neg (by simp only [ne_eq, not_not]; exact v5), if_pos f6]
        exact ⟨hch, undump_of_header_err hch⟩
      · have v0 : data.take 4 = [27, 76, 117, 97] := by
          have := hvalid 0 (by omega) (by omega)
          simpa [headerFieldOk] using this
        have v1 : data.getD 4 0 = 81 := by
          have := hvalid 1 (by omega) (by omega)
          simpa [headerFieldOk] using this
        have v2 : data.getD 5 0 = 0 := by
          have := hvalid 2 (by omega) (by omega)
          simpa [headerFieldOk] using this
        have v3 : data.getD 6 0 = 1 := by
          have := hvalid 3 (by omega) (by omega)
          simpa [headerFieldOk] using this
        have v4 : data.getD 7 0 = 4 := by
          have := hvalid 4 (by omega) (by omega)
          simpa [headerFieldOk] using this
        have v5 : data.getD 8 0 = 8 := by
          have := hvalid 5 (by omega) (by omega)
          simpa [headerFieldOk] using this
        have v6 : data.getD 9 0 = 4 := by
          have := hvalid 6 (by omega) (by omega)
          simpa [headerFieldOk] using this
        have f7 : data.getD 10 0 ≠ 8 := by
          simpa [headerFieldOk] using hfail
        have hch : checkHeader data = .error (DErr.msg ("bad sizeof(lua_Number)")) := by
          unfold checkHeader
          rw [if_neg (Nat.not_lt.mpr h12),
            if_neg (by simp only [ne_eq, not_not]; exact v0),
            if_neg (by simp only [ne_eq, not_not]; exact v1),
            if_neg (by simp only [ne_eq, not_not]; exact v2),
            if_neg (by simp only [ne_eq, not_not]; exact v3),
            if_neg (by simp only [ne_eq, not_not]; exact v4),
            if_neg (by simp only [ne_eq, not_not]; exact v5),
            if_neg (by simp only [ne_eq, not_not]; exact v6), if_pos f7]
        exact ⟨hch, undump_of_header_err hch⟩
      · have v0 : data.take 4 = [27, 76, 117, 97] := by
          have := hvalid 0 (by omega) (by omega)
          simpa [headerFieldOk] using this
        have v1 : data.getD 4 0 = 81 := by
          have := hvalid 1 (by omega) (by omega)
          simpa [headerFieldOk] using this
        have v2 : data.getD 5 0 = 0 := by
          have := hvalid 2 (by omega) (by omega)
          simpa [headerFieldOk] using this
        have v3 : data.getD 6 0 = 1 := by
          have := hvalid 3 (by omega) (by omega)
          simpa [headerFieldOk] using this
        have v4 : data.getD 7 0 = 4 := by
          have := hvalid 4 (by omega) (by omega)
          simpa [headerFieldOk] using this
        have v5 : data.getD 8 0 = 8 := by
          have := hvalid 5 (by omega) (by omega)
          simpa [headerFieldOk] using this
        have v6 : data.getD 9 0 = 4 := by
          have := hvalid 6 (by omega) (by omega)
          simpa [headerFieldOk] using this
        have v7 : data.getD 10 0 = 8 := by
          have := hvalid 7 (by omega) (by omega)
          simpa [headerFieldOk] using this
        have f8 : data.getD 11 0 ≠ 0 := by
          simpa [headerFieldOk] using hfail
        have hch : checkHeader data =
            .error (DErr.msg ("lua_Number must be floating point")) := by
          unfold checkHeader
          rw [if_neg (Nat.not_lt.mpr h12),
            if_neg (by simp only [ne_eq, not_not]; exact v0),
            if_neg (by simp only [ne_eq, not_not]; exact v1),
            if_neg (by simp only [ne_eq, not_not]; exact v2),
            if_neg (by simp only [ne_eq, not_not]; exact v3),
            if_neg (by simp only [ne_eq, not_not]; exact v4),
            if_neg (by simp only [ne_eq, not_not]; exact v5),
            if_neg (by simp only [ne_eq, not_not]; exact v6),
            if_neg (by simp only [ne_eq, not_not]; exact v7), if_pos f8]
        exact ⟨hch, undump_of_header_err hch⟩

/-- C6 witness at concrete inputs: the reference chunk's header passes all
nine checks, and corrupting only the endianness byte fails the decode with
the endianness error. -/
theorem c6_witness :
    checkHeader refChunk = .ok (refChunk.drop 12) ∧
    checkHeader (refChunk.set 6 0) = .error (DErr.msg ("bad endianness")) ∧
    undump (refChunk.set 6 0) = .error (DErr.msg ("bad endianness")) := by
  refine ⟨?_, ?_, ?_⟩
  · exact ((c6_header_fields refChunk).2 (by decide)).1 (by decide)
  · exact (((c6_header_fields (refChunk.set 6 0)).2 (by decide)).2 3 (by decide)
      (by decide) (by decide)).1
  · exact (((c6_header_fields (refChunk.set 6 0)).2 (by decide)).2 3 (by decide)
      (by decide) (by decide)).2

/-- C7 (counterexample): the truncation error of the 1-byte Boolean
payload guard is the bare condition `self.remaining() >= 1` (the guard has
no message), which does not identify the truncated field. -/
theorem c7_unnamed_guard_cex :
    undump cexBool = .error (DErr.cond ("self.remaining() >= 1")) ∧
    isFieldNamedTrunc (DErr.cond ("self.remaining() >= 1")) = false :=
  ⟨by rfl, by rfl⟩

/-- C7 (amended): every truncation error of the decoder either carries an
explicit `truncated <field>` message or is one of the two message-less
guards inside constant decoding (the 1-byte Boolean payload and the 8-byte
Number payload), which carry only the stringified condition. -/
theorem c7_truncation_messages :
    (∀ e, e ∈ TruncErrs → isFieldNamedTrunc e = true ∨
      e = DErr.cond ("self.remaining() >= 1") ∨
      e = DErr.cond ("self.remaining() >= 8")) ∧
    undump cexBool = .error (DErr.cond ("self.remaining() >= 1")) ∧
    undump cexNum = .error (DErr.cond ("self.remaining() >= 8")) := by
  refine ⟨?_, by rfl, by rfl⟩
  intro e he
  fin_cases he <;> decide

/-- C7 witness at a concrete error value. -/
theorem c7_witness :
    isFieldNamedTrunc (DErr.msg ("truncated header")) = true ∨
    DErr.msg ("truncated header") = DErr.cond ("self.remaining() >= 1") ∨
    DErr.msg ("truncated header") = DErr.cond ("self.remaining() >= 8") :=
  c7_truncation_messages.1 (DErr.msg ("truncated header")) (by decide)

theorem preplicateAllocs_mem {G : List Nat → Except DErr (Function × List Nat)}
    {GA : List Nat → List AllocEvent} {e : AllocEvent} :
    ∀ n (buf : List Nat), e ∈ preplicateAllocs G GA n buf → ∃ b, e ∈ GA b := by
  intro n
  induction n with
  | zero =>
    intro buf h
    exact absurd h (by simp [preplicateAllocs])
  | succ n ih =>
    intro buf h
    unfold preplicateAllocs at h
    rw [List.mem_append] at h
    rcases h with h | h
    · exact ⟨buf, h⟩
    · cases hg : G buf with
      | error e1 =>
        simp only [hg] at h
        exact absurd h (by simp)
      | ok p =>
        obtain ⟨f1, b1⟩ := p
        simp only [hg] at h
        exact ih b1 h

theorem get_functionBodyAllocs_mem {G : List Nat → Except DErr (Function × List Nat)}
    {GA : List Nat → List AllocEvent} {buf : List Nat} {e : AllocEvent}
    (hGA : ∀ b e2, e2 ∈ GA b →
      (e2.field = ("code") → e2.cap * 4 + 4 ≤ e2.remaining) ∧
      (e2.field = ("lineinfo") → 4 * e2.cap ≤ e2.remaining))
    (h : e ∈ get_functionBodyAllocs G GA buf) :
    (e.field = ("code") → e.cap * 4 + 4 ≤ e.remaining) ∧
    (e.field = ("lineinfo") → 4 * e.cap ≤ e.remaining) := by
  unfold get_functionBodyAllocs at h
  cases h1 : get_string buf with
  | error e1 => simp only [h1] at h; exact absurd h (by simp)
  | ok p1 =>
  obtain ⟨s1, b1⟩ := p1
  simp only [h1] at h
  cases h2 : takeExact 16 (DErr.msg ("truncated function header")) b1 with
  | error e2 => simp only [h2] at h; exact absurd h (by simp)
  | ok p2 =>
  obtain ⟨hdr, b2⟩ := p2
  simp only [h2] at h
  cases h3 : takeExact (leNat (hdr.drop 12) * 4 + 4)
      (DErr.msg ("truncated function code")) b2 with
  | error e3 => simp only [h3] at h; exact absurd h (by simp)
  | ok p3 =>
  obtain ⟨codeblk, b3⟩ := p3
  simp only [h3] at h
  simp only [List.mem_cons] at h
  rcases h with h | h | h
  · subst h
    refine ⟨fun _ => (takeExact_ok h3).1, fun hc => absurd hc (by simp)⟩
  · subst h
    exact ⟨fun hc => absurd hc (by simp), fun hc => absurd hc (by simp)⟩
  cases h4 : preplicate readConstant (leNat (codeblk.drop (leNat (hdr.drop 12) * 4))) b3 with
  | error e4 => simp only [h4] at h; exact absurd h (by simp)
  | ok p4 =>
  obtain ⟨cs, b4⟩ := p4
  simp only [h4] at h
  cases h5 : takeExact 4 (DErr.msg ("truncated functions")) b4 with
  | error e5 => simp only [h5] at h; exact absurd h (by simp)
  | ok p5 =>
  obtain ⟨funlenB, b5⟩ := p5
  simp only [h5] at h
  simp only [List.mem_cons] at h
  rcases h with h | h
  · subst h
    exact ⟨fun hc => absurd hc (by simp), fun hc => absurd hc (by simp)⟩
  rw [List.mem_append] at h
  rcases h with h | h
  · obtain ⟨b, hb⟩ := preplicateAllocs_mem _ _ h
    exact hGA b e hb
  cases h6 : preplicate G (leNat funlenB) b5 with
  | error e6 => simp only [h6] at h; exact absurd h (by simp)
  | ok p6 =>
  obtain ⟨fs, b6⟩ := p6
  simp only [h6] at h
  cases h7 : takeExact 4 (DErr.msg ("truncated debug lineinfo size")) b6 with
  | error e7 => simp only [h7] at h; exact absurd h (by simp)
  | ok p7 =>
  obtain ⟨liszB, b7⟩ := p7
  simp only [h7] at h
  cases h8 : takeExact (4 * leNat liszB) (DErr.msg ("truncated debug lineinfo")) b7 with
  | error e8 => simp only [h8] at h; exact absurd h (by simp)
  | ok p8 =>
  obtain ⟨liblk, b8⟩ := p8
  simp only [h8] at h
  simp only [List.mem_cons] at h
  rcases h with h | h
  · subst h
    refine ⟨fun hc => absurd hc (by simp), fun _ => (takeExact_ok h8).1⟩
  cases h9 : takeExact 4 (DErr.msg ("truncated debug locvars size")) b8 with
  | error e9 => simp only [h9] at h; exact absurd h (by simp)
  | ok p9 =>
  obtain ⟨lvszB, b9⟩ := p9
  simp only [h9] at h
  simp only [List.mem_cons] at h
  rcases h with h | h
  · subst h
    exact ⟨fun hc => absurd hc (by simp), fun hc => absurd hc (by simp)⟩
  cases h10 : preplicate readLocVar (leNat lvszB) b9 with
  | error e10 => simp only [h10] at h; exact absurd h (by simp)
  | ok p10 =>
  obtain ⟨lvs, b10⟩ := p10
  simp only [h10] at h
  cases h11 : takeExact 4 (DErr.msg ("truncated debug upvalues size")) b10 with
  | error e11 => simp only [h11] at h; exact absurd h (by simp)
  | ok p11 =>
  obtain ⟨uvszB, b11⟩ := p11
  simp only [h11] at h
  simp only [List.mem_cons, List.not_mem_nil, or_false] at h
  subst h
  exact ⟨fun hc => absurd hc (by simp), fun hc => absurd hc (by simp)⟩

theorem get_functionAllocs_mem : ∀ fuel (buf : List Nat) (e : AllocEvent),
    e ∈ get_functionAllocs fuel buf →
    (e.field = ("code") → e.cap * 4 + 4 ≤ e.remaining) ∧
    (e.field = ("lineinfo") → 4 * e.cap ≤ e.remaining) := by
  intro fuel
  induction fuel with
  | zero =>
    intro buf e h
    exact absurd h (by simp [get_functionAllocs])
  | succ n ih =>
    intro buf e h
    have hdef : get_functionAllocs (n + 1) buf =
        get_functionBodyAllocs (get_functionF n) (get_functionAllocs n) buf := rfl
    rw [hdef] at h
    exact get_functionBodyAllocs_mem (fun b e2 he2 => ih b e2 he2) h

/-- C8 (counterexample): with a constant count of `0xFFFFFFFF` read while
zero bytes remain, `Vec::with_capacity(4294967295)` is reached before any
availability check covering the constants payload, so the count is not
checked against remaining input before the allocation it sizes. -/
theorem c8_unchecked_alloc_cex :
    AllocEvent.mk ("constants") 4294967295 0 ∈ undumpAllocs cexConstAlloc ∧
    undump cexConstAlloc = .error (DErr.msg ("truncated constants")) ∧
    ¬ (∀ e ∈ undumpAllocs cexConstAlloc, e.cap ≤ e.remaining) := by
  refine ⟨by decide, by rfl, ?_⟩
  intro hall
  have h := hall (AllocEvent.mk ("constants") 4294967295 0) (by decide)
  exact absurd h (by decide)

/-- C8 (amended): of the six counted sequences, exactly the `code` and
`lineinfo` counts are checked against the remaining input before their
allocation (`count * 4 + 4` and `count * 4` bytes respectively); the
`constants`, `funs`, `locvars` and `upvalues` allocations are sized by
counts whose payload availability is not yet verified, as the concrete
traces with count `0xFFFFFFFF` and zero remaining bytes show. -/
theorem c8_alloc_checks :
    (∀ fuel (buf : List Nat) (e : AllocEvent), e ∈ get_functionAllocs fuel buf →
      (e.field = ("code") → e.cap * 4 + 4 ≤ e.remaining) ∧
      (e.field = ("lineinfo") → 4 * e.cap ≤ e.remaining)) ∧
    AllocEvent.mk ("funs") 4294967295 0 ∈ undumpAllocs cexFunsAlloc ∧
    AllocEvent.mk ("locvars") 4294967295 0 ∈ undumpAllocs cexLocvAlloc ∧
    AllocEvent.mk ("upvalues") 4294967295 0 ∈ undumpAllocs cexUpvAlloc :=
  ⟨get_functionAllocs_mem, by decide, by decide, by decide⟩

/-- C8 witness at a concrete trace: the `code` allocation event of a
well-formed prefix satisfies its availability bound. -/
theorem c8_witness :
    (AllocEvent.mk ("code") 0 4).cap * 4 + 4 ≤ (AllocEvent.mk ("code") 0 4).remaining :=
  (c8_alloc_checks.1 29 (cexConstAlloc.drop 12) (AllocEvent.mk ("code") 0 4)
    (by decide)).1 (by rfl)

end Undump
